import Mathlib

/-
Verification of the SQL-generation layer of the northwind warehouse
repository.  The Python sources under sqlmesh/models build SQLGlot
expression trees; here each relevant builder is embedded as a Lean
function producing values of a small SQL expression type `SqlExpr`,
together with an evaluation semantics `evalExpr` for the SQL functions
those builders use (CONCAT, CONCAT_WS, COALESCE, SHA256, GREATEST,
LEAST, BETWEEN, comparisons).  SHA256 itself is external to the
repository, so the evaluator is parameterised by an abstract hash
function `sha : String → String`; theorems that need collision-freedom
take injectivity of `sha` as a hypothesis.
-/

/-- Semantic value of a SQL scalar expression: NULL, text, integer or boolean. -/
inductive Value where
  | vNull
  | vStr (s : String)
  | vInt (n : Int)
  | vBool (b : Bool)
deriving DecidableEq, Repr

namespace Value

/-- Text rendering used for `CAST(x AS text)`; NULL stays NULL. -/
def toText : Value → Value
  | vNull => vNull
  | vStr s => vStr s
  | vInt n => vStr (toString n)
  | vBool b => vStr (if b then "true" else "false")

/-- Text rendering as an `Option`: `none` exactly for NULL. -/
def asText? : Value → Option String
  | vNull => none
  | vStr s => some s
  | vInt n => some (toString n)
  | vBool b => some (if b then "true" else "false")

/-- SQL `AND` on values (NULL-propagating). -/
def andV : Value → Value → Value
  | vBool a, vBool b => vBool (a && b)
  | _, _ => vNull

/-- SQL equality on values (NULL-propagating, false across types). -/
def eqV : Value → Value → Value
  | vNull, _ => vNull
  | _, vNull => vNull
  | vStr a, vStr b => vBool (decide (a = b))
  | vInt a, vInt b => vBool (decide (a = b))
  | vBool a, vBool b => vBool (decide (a = b))
  | _, _ => vBool false

/-- SQL `<` on integer values (NULL otherwise). -/
def ltV : Value → Value → Value
  | vInt a, vInt b => vBool (decide (a < b))
  | _, _ => vNull

/-- SQL `>` on integer values (NULL otherwise). -/
def gtV : Value → Value → Value
  | vInt a, vInt b => vBool (decide (a > b))
  | _, _ => vNull

/-- SQL `x BETWEEN lo AND hi` on integer values: inclusive on both ends. -/
def betweenV : Value → Value → Value → Value
  | vInt x, vInt lo, vInt hi => vBool (decide (lo ≤ x) && decide (x ≤ hi))
  | _, _, _ => vNull

end Value

/-- SQL scalar types appearing in the generators (SQLGlot `DataType`s). -/
inductive SqlType where
  | text
  | varcharMax
  | timestamp
  | varbinaryMax
  | date
  | time
  | float
  | bigint
  | other (s : String)
deriving DecidableEq, Repr

/-- Shallow embedding of the SQLGlot expression nodes the generators build.
A column reference carries its qualifying table name (`""` if unqualified). -/
inductive SqlExpr where
  | col (table name : String)
  | litStr (s : String)
  | litNum (n : Int)
  | cast (e : SqlExpr) (t : SqlType)
  | fn (name : String) (args : List SqlExpr)
  | aliasAs (e : SqlExpr) (name : String)
  | andE (a b : SqlExpr)
  | eqE (a b : SqlExpr)
  | ltE (a b : SqlExpr)
  | gtE (a b : SqlExpr)
  | between (e lo hi : SqlExpr)
  | star
  | rowNumberOver (partitionBy orderBy : List SqlExpr)
  | falseE
  | rawSql (s : String)

/-- Alias name of an expression (`exp.Expression.alias` in SQLGlot: empty when unaliased). -/
def aliasOf : SqlExpr → String
  | .aliasAs _ n => n
  | _ => ""

/-- SQL `COALESCE` on a value list: first non-NULL argument. -/
def coalesceVals : List Value → Value
  | [] => .vNull
  | .vNull :: rest => coalesceVals rest
  | v :: _ => v

/-- SQL `CONCAT` on a value list: NULL-propagating text concatenation. -/
def concatTexts : List Value → Value
  | [] => .vStr ""
  | v :: vs =>
    match v.asText?, concatTexts vs with
    | some s, .vStr rest => .vStr (s ++ rest)
    | _, _ => .vNull

/-- The integer contents of a value list, or `none` if any entry is not an
integer. -/
def intsOf : List Value → Option (List Int)
  | [] => some []
  | .vInt n :: vs => (intsOf vs).map (fun ns => n :: ns)
  | _ => none

/-- SQL `GREATEST`/`LEAST` on integer value lists (NULL on empty or non-integer input). -/
def reduceInts (op : Int → Int → Int) (vs : List Value) : Value :=
  match intsOf vs with
  | some (n :: ns) => .vInt (ns.foldl op n)
  | _ => .vNull

/-- Semantics of the SQL functions used by the generators.  `CONCAT_WS`
skips NULL arguments entirely (no sentinel substitution), which is the
behaviour the composite-hook builder relies on. -/
def applyFn (sha : String → String) (f : String) (vs : List Value) : Value :=
  if f = "CONCAT" then concatTexts vs
  else if f = "CONCAT_WS" then
    match vs with
    | sep :: rest =>
      match sep.asText? with
      | some s => .vStr (String.intercalate s (rest.filterMap Value.asText?))
      | none => .vNull
    | [] => .vNull
  else if f = "COALESCE" then coalesceVals vs
  else if f = "SHA256" then
    match vs with
    | [v] =>
      match v.asText? with
      | some s => .vStr (sha s)
      | none => .vNull
    | _ => .vNull
  else if f = "GREATEST" then reduceInts max vs
  else if f = "LEAST" then reduceInts min vs
  else .vNull

mutual

/-- Evaluation of an embedded SQL expression against a row environment
`env : table → column → Value`, with `sha` interpreting `SHA256`. -/
def evalExpr (sha : String → String) (env : String → String → Value) : SqlExpr → Value
  | .col t n => env t n
  | .litStr s => .vStr s
  | .litNum n => .vInt n
  | .cast e t =>
    match t with
    | .text => (evalExpr sha env e).toText
    | _ => evalExpr sha env e
  | .fn f args => applyFn sha f (evalArgs sha env args)
  | .aliasAs e _ => evalExpr sha env e
  | .andE a b => (evalExpr sha env a).andV (evalExpr sha env b)
  | .eqE a b => (evalExpr sha env a).eqV (evalExpr sha env b)
  | .ltE a b => (evalExpr sha env a).ltV (evalExpr sha env b)
  | .gtE a b => (evalExpr sha env a).gtV (evalExpr sha env b)
  | .between e lo hi =>
    (evalExpr sha env e).betweenV (evalExpr sha env lo) (evalExpr sha env hi)
  | .star => .vNull
  | .rowNumberOver _ _ => .vNull
  | .falseE => .vBool false
  | .rawSql _ => .vNull

/-- Evaluation of an argument list, left to right. -/
def evalArgs (sha : String → String) (env : String → String → Value) : List SqlExpr → List Value
  | [] => []
  | e :: es => evalExpr sha env e :: evalArgs sha env es

end

/-- One level of a generated query: a SELECT with projections, a FROM
source, JOINs, an optional WHERE and named CTE bindings (the CTE bodies
in this repository are themselves plain SELECTs). -/
structure SimpleSelect where
  projections : List SqlExpr
  fromSource : String

/-- A JOIN clause: target table, ON condition and join kind. -/
structure JoinSpec where
  table : String
  onCond : SqlExpr
  kind : String

/-- Top-level generated query plan. -/
structure SelectPlan where
  projections : List SqlExpr
  fromSource : String
  joins : List JoinSpec
  whereClause : Option SqlExpr
  ctes : List (String × SimpleSelect)

/- ------------------------------------------------------------------
   das__raw__blueprint.py — the Raw Deduplicator
   ------------------------------------------------------------------ -/

/-- Mirrors `build_source_columns` (das__raw__blueprint.py:49-60): one
`CAST(col AS type) AS col` per metadata entry, JSON widened to
varchar(max). -/
def build_source_columns (columns : List (String × String)) : List SqlExpr :=
  columns.map fun kv =>
    SqlExpr.aliasAs
      (SqlExpr.cast (SqlExpr.col "" kv.1)
        (if kv.2.toLower = "json" then SqlType.varcharMax else SqlType.other kv.2))
      kv.1

/-- Mirrors `get_columns_to_hash` (das__raw__blueprint.py:62-63): aliases of
the source columns whose alias does not start with `_dlt`. -/
def get_columns_to_hash (sourceColumns : List SqlExpr) : List String :=
  (sourceColumns.filter (fun c => !(aliasOf c).startsWith "_dlt")).map aliasOf

/-- The fixed NULL sentinel used by `hash_columns`. -/
def sentinel : String := "_sqlmesh_surrogate_key_null_"

/-- Mirrors the per-field rendering inside `hash_columns`
(das__raw__blueprint.py:70-76): `COALESCE(CAST(field AS text), sentinel)`. -/
def coalesce_sentinel (field : SqlExpr) : SqlExpr :=
  SqlExpr.fn "COALESCE" [SqlExpr.cast field SqlType.text, SqlExpr.litStr sentinel]

/-- The `"|"`-separated tail of the `string_fields` list built by
`hash_columns` for the second and later fields. -/
def hash_sep_fields : List SqlExpr → List SqlExpr
  | [] => []
  | f :: fs => SqlExpr.litStr "|" :: coalesce_sentinel f :: hash_sep_fields fs

/-- The full `string_fields` list of `hash_columns`: first field without a
leading separator, later fields each preceded by the `"|"` literal. -/
def hash_string_fields : List SqlExpr → List SqlExpr
  | [] => []
  | f :: fs => coalesce_sentinel f :: hash_sep_fields fs

/-- Mirrors `hash_columns` (das__raw__blueprint.py:65-81):
`SHA256(CONCAT(string_fields))`. -/
def hash_columns (fields : List SqlExpr) : SqlExpr :=
  SqlExpr.fn "SHA256" [SqlExpr.fn "CONCAT" (hash_string_fields fields)]

/-- Mirrors `to_timestamp` (das__raw__blueprint.py:83-109): epoch seconds →
timestamp via `DATEADD(MICROSECOND, round(x * 1e6), '1970-01-01')`. -/
def to_timestamp (column : SqlExpr) : SqlExpr :=
  SqlExpr.cast
    (SqlExpr.fn "DATEADD"
      [SqlExpr.rawSql "MICROSECOND",
       SqlExpr.cast
         (SqlExpr.fn "ROUND"
           [SqlExpr.fn "MUL" [SqlExpr.cast column SqlType.float, SqlExpr.rawSql "1e6"],
            SqlExpr.litNum 0])
         SqlType.bigint,
       SqlExpr.cast (SqlExpr.litStr "1970-01-01") SqlType.timestamp])
    SqlType.timestamp

/-- Mirrors `build_sql_select` (das__raw__blueprint.py:111-169): CTE
`cte__source` computes the record hash and load timestamp, CTE
`cte__deduplicated` ranks rows per hash by `ROW_NUMBER() OVER (PARTITION BY
_record__hash ORDER BY _record__loaded_at)`, and the outer SELECT keeps
rank 1 and ANTI-joins the target table on the record hash. -/
def build_sql_select (name sourceTable : String) (sourceColumns : List SqlExpr)
    (columnsToHash : List String) : SelectPlan :=
  let hashedColumns :=
    SqlExpr.aliasAs (hash_columns (columnsToHash.map (fun a => SqlExpr.col "" a)))
      "_record__hash"
  let loadedAt :=
    SqlExpr.aliasAs (to_timestamp (SqlExpr.col "" "_dlt_load_id")) "_record__loaded_at"
  let cteSource : SimpleSelect :=
    ⟨sourceColumns ++ [hashedColumns, loadedAt], sourceTable⟩
  let cteDeduplicated : SimpleSelect :=
    ⟨[SqlExpr.star,
      SqlExpr.aliasAs
        (SqlExpr.rowNumberOver [SqlExpr.col "" "_record__hash"]
          [SqlExpr.col "" "_record__loaded_at"])
        "_record__hash__version"],
     "cte__source"⟩
  { projections :=
      sourceColumns ++
        [SqlExpr.aliasAs (SqlExpr.cast (SqlExpr.col "" "_record__hash") SqlType.varbinaryMax)
           "_record__hash",
         SqlExpr.aliasAs (SqlExpr.cast (SqlExpr.col "" "_record__loaded_at") SqlType.timestamp)
           "_record__loaded_at"],
    fromSource := "cte__deduplicated",
    joins :=
      [⟨"das.raw." ++ name,
        SqlExpr.eqE (SqlExpr.col name "_record__hash")
          (SqlExpr.col "cte__deduplicated" "_record__hash"),
        "ANTI"⟩],
    whereClause :=
      some (SqlExpr.eqE (SqlExpr.col "" "_record__hash__version") (SqlExpr.litNum 1)),
    ctes := [("cte__source", cteSource), ("cte__deduplicated", cteDeduplicated)] }

/-- Mirrors the `das.raw` model `entrypoint` (das__raw__blueprint.py:181-196):
rejects an empty model name, otherwise builds the dedup plan from the
blueprint's column metadata. -/
def raw_entrypoint (name schema : String) (columns : List (String × String)) :
    Except String SelectPlan :=
  if name = "" then
    Except.error "Blueprint variable 'name' must be a non-empty string"
  else
    let sourceTable := "landing_zone." ++ schema ++ "." ++ name
    let sourceColumns := build_source_columns columns
    let columnsToHash := get_columns_to_hash sourceColumns
    Except.ok (build_sql_select name sourceTable sourceColumns columnsToHash)

/- Semantics of the hash pre-image. -/

/-- Rendering of one column value inside the record hash: the text value,
or the fixed sentinel for NULL. -/
def renderHashField (v : Option String) : String := v.getD sentinel

/-- The SHA256 pre-image the Raw Deduplicator computes: rendered column
values in metadata order joined by the `"|"` separator. -/
def hashConcatInput (vals : List (Option String)) : String :=
  String.intercalate "|" (vals.map renderHashField)

/- ------------------------------------------------------------------
   Relational semantics of the deduplication pipeline of
   `build_sql_select`: `cte__deduplicated`'s ROW_NUMBER ranking, the
   rank-1 filter and the ANTI join.
   ------------------------------------------------------------------ -/

/-- A row of `cte__source`: the hashed column values (in metadata order,
`none` for NULL), the computed `_record__hash` and `_record__loaded_at`. -/
structure SrcRow where
  values : List (Option String)
  hash : String
  loadedAt : Nat
deriving DecidableEq, Repr

/-- The `cte__source` row for one landing-zone row: `_record__hash` is the
abstract SHA256 of the rendered hash input. -/
def cte_source_row (sha : String → String) (values : List (Option String))
    (loadedAt : Nat) : SrcRow :=
  ⟨values, sha (hashConcatInput values), loadedAt⟩

/-- Sort-order of `ROW_NUMBER() OVER (PARTITION BY _record__hash ORDER BY
_record__loaded_at)`: row `j` precedes row `i` when it has a strictly
smaller `loadedAt`, with input position breaking ties. -/
def precedesB (a b : SrcRow) (ia ib : Nat) : Bool :=
  decide (a.loadedAt < b.loadedAt) || (decide (a.loadedAt = b.loadedAt) && decide (ia < ib))

/-- Row `i` has `_record__hash__version = 1`: no row of the same hash
partition precedes it in the ROW_NUMBER sort order. -/
def rowVersionOne (rs : List SrcRow) (i : Fin rs.length) : Bool :=
  (List.finRange rs.length).all fun j =>
    !(decide ((rs.get j).hash = (rs.get i).hash)
      && precedesB (rs.get j) (rs.get i) j.val i.val)

/-- Rows surviving the `WHERE _record__hash__version = 1` filter of
`build_sql_select`, in input order. -/
def raw_dedup (rs : List SrcRow) : List SrcRow :=
  ((List.finRange rs.length).filter (fun i => rowVersionOne rs i)).map rs.get

/-- The ANTI join of `build_sql_select`: drop rows whose `_record__hash`
already exists in the target table. -/
def raw_anti_join (rows : List SrcRow) (targetHashes : List String) : List SrcRow :=
  rows.filter (fun r => !(targetHashes.contains r.hash))

/-- Net output of the generated dedup plan: rank-1 rows whose hash is not
yet in the target. -/
def raw_plan_rows (rs : List SrcRow) (targetHashes : List String) : List SrcRow :=
  raw_anti_join (raw_dedup rs) targetHashes

/-- Linearisation key for the ROW_NUMBER sort order: primary key
`loadedAt`, tie-broken by input position. -/
def sortKey (rs : List SrcRow) (i : Fin rs.length) : Nat :=
  (rs.get i).loadedAt * rs.length + i.val

/-- The `"|" ++ field`-shaped tail produced by joining the second and later
rendered hash fields. -/
def sepJoin : List String → String
  | [] => ""
  | s :: ss => "|" ++ s ++ sepJoin ss

/- ------------------------------------------------------------------
   dab__hook__blueprint.py — the Hook Resolver
   ------------------------------------------------------------------ -/

/-- A simple hook declaration from the model catalog: the YAML keys
`name`, `keyset`, `expression`, `primary` (each possibly absent). -/
structure SimpleHook where
  name : Option String
  keyset : String
  expression : Option String
  primary : Bool
deriving DecidableEq, Repr

/-- A composite hook declaration: `name`, child hook names, `primary`. -/
structure CompositeHook where
  name : Option String
  hooks : List String
  primary : Bool
deriving DecidableEq, Repr

/-- Python truthiness of a hook name: absent or empty counts as missing. -/
def validHookName : Option String → Option String
  | some n => if n = "" then none else some n
  | none => none

/-- Mirrors `build_hook_expression` (dab__hook__blueprint.py:22-32):
`CONCAT('<keyset>|', CAST(expression AS text)) AS name`, or `None` when
the name is falsy or the expression absent. -/
def build_hook_expression (h : SimpleHook) : Option SqlExpr :=
  match validHookName h.name, h.expression with
  | some n, some e =>
    some (SqlExpr.aliasAs
      (SqlExpr.fn "CONCAT"
        [SqlExpr.litStr (h.keyset ++ "|"), SqlExpr.cast (SqlExpr.rawSql e) SqlType.text])
      n)
  | _, _ => none

/-- Mirrors `build_composite_hook_expression` (dab__hook__blueprint.py:34-43):
`CONCAT_WS('~', child_1, child_2, ...) AS name`, or `None` when the name is
falsy or the child list empty.  The children are bare column references —
no COALESCE / sentinel wrapping. -/
def build_composite_hook_expression (h : CompositeHook) : Option SqlExpr :=
  match validHookName h.name, h.hooks with
  | some n, c :: cs =>
    some (SqlExpr.aliasAs
      (SqlExpr.fn "CONCAT_WS"
        (SqlExpr.litStr "~" :: (c :: cs).map (fun child => SqlExpr.col "" child)))
      n)
  | _, _ => none

/-- Mirrors `build_primary_hook_expression` (dab__hook__blueprint.py:46-54):
`CONCAT(primary_hook, '~epoch__valid_from|', CAST(_record__valid_from AS
text)) AS _pit<primary_hook>`, or `None` for a falsy primary hook. -/
def build_primary_hook_expression (primaryHook : Option String) : Option SqlExpr :=
  match validHookName primaryHook with
  | none => none
  | some p =>
    some (SqlExpr.aliasAs
      (SqlExpr.fn "CONCAT"
        [SqlExpr.col "" p,
         SqlExpr.litStr "~epoch__valid_from|",
         SqlExpr.cast (SqlExpr.col "" "_record__valid_from") SqlType.text])
      ("_pit" ++ p))

/-- Accumulator step of `process_hooks` (dab__hook__blueprint.py:57-72):
skip falsy names; record the hook name; the LAST hook marked primary wins;
collect the non-`None` hook expressions. -/
def process_hooks_step (acc : List String × Option String × List SqlExpr)
    (h : SimpleHook) : List String × Option String × List SqlExpr :=
  match validHookName h.name with
  | none => acc
  | some n =>
    (acc.1 ++ [n],
     if h.primary then some n else acc.2.1,
     acc.2.2 ++ (match build_hook_expression h with | some e => [e] | none => []))

/-- Mirrors `process_hooks` (dab__hook__blueprint.py:57-72). -/
def process_hooks (hooks : List SimpleHook) : List String × Option String × List SqlExpr :=
  hooks.foldl process_hooks_step ([], none, [])

/-- Accumulator step of `process_composite_hooks`
(dab__hook__blueprint.py:74-89); same shape as `process_hooks_step`. -/
def process_composite_hooks_step (acc : List String × Option String × List SqlExpr)
    (h : CompositeHook) : List String × Option String × List SqlExpr :=
  match validHookName h.name with
  | none => acc
  | some n =>
    (acc.1 ++ [n],
     if h.primary then some n else acc.2.1,
     acc.2.2 ++ (match build_composite_hook_expression h with | some e => [e] | none => []))

/-- Mirrors `process_composite_hooks` (dab__hook__blueprint.py:74-89). -/
def process_composite_hooks (compositeHooks : List CompositeHook) :
    List String × Option String × List SqlExpr :=
  compositeHooks.foldl process_composite_hooks_step ([], none, [])

/-- Mirrors `build_cte_source` (dab__hook__blueprint.py:92-93). -/
def build_cte_source (sourceTable : String) : SimpleSelect :=
  ⟨[SqlExpr.star], sourceTable⟩

/-- Mirrors `build_cte_hooks` (dab__hook__blueprint.py:95-96). -/
def build_cte_hooks (hookExpressions : List SqlExpr) : SimpleSelect :=
  ⟨hookExpressions ++ [SqlExpr.star], "cte__source"⟩

/-- Mirrors `build_cte_composite_hooks` (dab__hook__blueprint.py:98-99). -/
def build_cte_composite_hooks (compositeHookExpressions : List SqlExpr) : SimpleSelect :=
  ⟨compositeHookExpressions ++ [SqlExpr.star], "cte__hooks"⟩

/-- Mirrors `build_cte_primary_hook` (dab__hook__blueprint.py:101-104). -/
def build_cte_primary_hook (primaryHookExpression : Option SqlExpr) : Option SimpleSelect :=
  primaryHookExpression.map (fun e => ⟨[e, SqlExpr.star], "cte__composite_hooks"⟩)

/-- The primary hook the Hook Resolver `entrypoint` settles on
(dab__hook__blueprint.py:127-132): a truthy composite primary overrides the
simple-hook primary. -/
def hook_resolver_primary (hooks : List SimpleHook) (comps : List CompositeHook) :
    Option String :=
  match (process_composite_hooks comps).2.1 with
  | some c => some c
  | none => (process_hooks hooks).2.1

/-- Mirrors the `dab.hook` model `entrypoint` (dab__hook__blueprint.py:120-165).
`metadata` stands for the external `evaluator.columns_to_types` lookup and
`startTs`/`endTs` for the orchestrator-supplied time window.  A frame
without a (truthy) primary hook fails with the fixed error message of
line 145, which does not mention the frame name. -/
def hook_entrypoint (name : String) (hooks : List SimpleHook)
    (comps : List CompositeHook) (metadata : String → List String)
    (startTs endTs : SqlExpr) : Except String SelectPlan :=
  let sourceTable := "das.scd." ++ name
  let sourceColumns := metadata sourceTable
  let ph := process_hooks hooks
  let pc := process_composite_hooks comps
  let allHooks := ph.1 ++ pc.1
  let primaryHook := hook_resolver_primary hooks comps
  match primaryHook, build_primary_hook_expression primaryHook with
  | some p, some phe =>
    Except.ok
      { projections :=
          SqlExpr.col "" ("_pit" ++ p) :: (allHooks ++ sourceColumns).map (SqlExpr.col ""),
        fromSource := "cte__primary_hooks",
        joins := [],
        whereClause :=
          some (SqlExpr.between (SqlExpr.col "" "_record__updated_at") startTs endTs),
        ctes :=
          [("cte__source", build_cte_source sourceTable),
           ("cte__hooks", build_cte_hooks ph.2.2),
           ("cte__composite_hooks", build_cte_composite_hooks pc.2.2),
           ("cte__primary_hooks", ⟨[phe, SqlExpr.star], "cte__composite_hooks"⟩)] }
  | _, _ => Except.error "Primary hook is missing or invalid."

/- ------------------------------------------------------------------
   dar__bridge__blueprint.py — the Bridge Join Planner
   ------------------------------------------------------------------ -/

/-- A frame (entity) record of the catalog. -/
structure Frame where
  name : String
  hooks : List SimpleHook
  compositeHooks : List CompositeHook
  skipGeneration : Bool
deriving DecidableEq, Repr

/-- Mirrors `filter_frames` (dab__hook__blueprint.py:18-19). -/
def filter_frames (frames : List Frame) : List Frame :=
  frames.filter (fun f => !f.skipGeneration)

/-- Mirrors `find_primary_hook` (dar__bridge__blueprint.py:19-27): the
`name` field of the FIRST hook marked primary, simple hooks scanned before
composite hooks (and returned even when that name is absent). -/
def find_primary_hook (hooks : List SimpleHook) (comps : List CompositeHook) :
    Option String :=
  match hooks.find? (fun h => h.primary) with
  | some h => h.name
  | none =>
    match comps.find? (fun h => h.primary) with
    | some h => h.name
    | none => none

/-- The `(name, primary)` pairs of all hooks of a frame, simple then
composite — the iteration order of `get_foreign_frame_name`. -/
def Frame.hookNamePrimaries (f : Frame) : List (Option String × Bool) :=
  f.hooks.map (fun h => (h.name, h.primary)) ++
    f.compositeHooks.map (fun h => (h.name, h.primary))

/-- Mirrors `get_foreign_frame_name` (dar__bridge__blueprint.py:31-36): the
name of the first frame owning `hookName` as a primary hook. -/
def get_foreign_frame_name (hookName : String) (allFrames : List Frame) : Option String :=
  (allFrames.find? (fun f =>
    f.hookNamePrimaries.any (fun np => decide (np.1 = some hookName) && np.2))).map
    Frame.name

/-- Mirrors `get_foreign_hooks` (dar__bridge__blueprint.py:39-47): hook
names of this frame, other than the primary hook, that are primary in some
frame of the catalog. -/
def get_foreign_hooks (hooks : List SimpleHook) (comps : List CompositeHook)
    (primaryHook : String) (allFrames : List Frame) : List String :=
  (hooks.filterMap (fun h => h.name) ++ comps.filterMap (fun h => h.name)).filter
    (fun n => decide (n ≠ primaryHook)
      && decide (get_foreign_frame_name n allFrames ≠ none))

/-- Result record of `build_join_for_hook`. -/
structure JoinData where
  join : JoinSpec
  pit_hooks : List SqlExpr
  right_table_name : String


/-- Mirrors `build_join_for_hook` (dar__bridge__blueprint.py:51-86): LEFT
join to the foreign frame's bridge table on hook equality plus the strict
interval-overlap test `left.valid_from < right.valid_to AND left.valid_to >
right.valid_from`; `none` when no frame owns the hook (Python returns `{}`). -/
def build_join_for_hook (fk leftTable : String) (allFrames : List Frame)
    (metadata : String → List String) : Option JoinData :=
  match get_foreign_frame_name fk allFrames with
  | none => none
  | some foreignFrameName =>
    let rightTableName := "_bridge__" ++ foreignFrameName
    let rightTable := "dar.uss__staging." ++ rightTableName
    let rightColumns := metadata rightTable
    some
      { join :=
          { table := rightTable,
            onCond :=
              SqlExpr.andE
                (SqlExpr.andE
                  (SqlExpr.eqE (SqlExpr.col leftTable fk) (SqlExpr.col rightTableName fk))
                  (SqlExpr.ltE (SqlExpr.col leftTable "_record__valid_from")
                    (SqlExpr.col rightTableName "_record__valid_to")))
                (SqlExpr.gtE (SqlExpr.col leftTable "_record__valid_to")
                  (SqlExpr.col rightTableName "_record__valid_from")),
            kind := "LEFT" },
        pit_hooks :=
          (rightColumns.filter (fun c => c.startsWith "_pit")).map
            (fun c => SqlExpr.col rightTableName c),
        right_table_name := rightTableName }

/-- Result record of `build_joins`. -/
structure JoinsData where
  joins : List JoinSpec
  foreign_hook_columns : List SqlExpr
  record_metadata_tables_tail : List String


/-- Mirrors `build_joins` (dar__bridge__blueprint.py:89-105); the record
metadata tables are `leftTable ::` the collected right-table names, kept
here as the tail list. -/
def build_joins (foreignHooks : List String) (leftTable : String)
    (allFrames : List Frame) (metadata : String → List String) : JoinsData :=
  foreignHooks.foldl
    (fun acc fk =>
      match build_join_for_hook fk leftTable allFrames metadata with
      | none => acc
      | some jd =>
        { joins := acc.joins ++ [jd.join],
          foreign_hook_columns := acc.foreign_hook_columns ++ jd.pit_hooks,
          record_metadata_tables_tail := acc.record_metadata_tables_tail ++ [jd.right_table_name] })
    ⟨[], [], []⟩

/-- Mirrors the inner `validity_expression` of `build_validity_expressions`
(dar__bridge__blueprint.py:109-111): the aggregate function over one
qualified column per table, degenerating to the bare column for a single
table (`none` for an empty table list, where Python would fault). -/
def validity_expression (columnName funcName : String) (tables : List String) :
    Option SqlExpr :=
  match tables with
  | [] => none
  | [t] => some (SqlExpr.col t columnName)
  | t₁ :: t₂ :: ts =>
    some (SqlExpr.fn funcName ((t₁ :: t₂ :: ts).map (fun t => SqlExpr.col t columnName)))

/-- The four aggregated validity columns of `build_validity_expressions`
(dar__bridge__blueprint.py:108-118). -/
structure ValidityExprs where
  record__updated_at : Option SqlExpr
  record__valid_from : Option SqlExpr
  record__valid_to : Option SqlExpr
  record__is_current : Option SqlExpr


/-- Mirrors `build_validity_expressions` (dar__bridge__blueprint.py:108-118):
GREATEST over `updated_at` and `valid_from`, LEAST over `valid_to` and
`is_current`. -/
def build_validity_expressions (tables : List String) : ValidityExprs :=
  ⟨validity_expression "_record__updated_at" "GREATEST" tables,
   validity_expression "_record__valid_from" "GREATEST" tables,
   validity_expression "_record__valid_to" "LEAST" tables,
   validity_expression "_record__is_current" "LEAST" tables⟩

/-- Total form of `validity_expression` for the non-empty table list the
bridge entrypoint always passes (`leftTable ::` join targets). -/
def validity_expression_ne (columnName funcName : String) (t₀ : String)
    (rest : List String) : SqlExpr :=
  match rest with
  | [] => SqlExpr.col t₀ columnName
  | r :: rs => SqlExpr.fn funcName ((t₀ :: r :: rs).map (fun t => SqlExpr.col t columnName))

/-- Mirrors the `dar.uss__staging._bridge__` model `entrypoint`
(dar__bridge__blueprint.py:136-177).  A frame whose catalog entry has no
truthy primary hook fails with an error naming the frame (line 144). -/
def bridge_entrypoint (name : String) (hooks : List SimpleHook)
    (comps : List CompositeHook) (allFrames : List Frame)
    (metadata : String → List String) (startTs endTs : SqlExpr) :
    Except String SelectPlan :=
  match validHookName (find_primary_hook hooks comps) with
  | none => Except.error ("No primary hook found for frame " ++ name)
  | some p =>
    let foreignHooks := get_foreign_hooks hooks comps p allFrames
    let leftTable := "frame__" ++ name
    let jd := build_joins foreignHooks leftTable allFrames metadata
    let tail := jd.record_metadata_tables_tail
    Except.ok
      { projections :=
          [SqlExpr.aliasAs (SqlExpr.cast (SqlExpr.litStr name) SqlType.text) "peripheral",
           SqlExpr.col leftTable ("_pit" ++ p),
           SqlExpr.col leftTable p] ++
          jd.foreign_hook_columns ++
          [SqlExpr.aliasAs (validity_expression_ne "_record__updated_at" "GREATEST" leftTable tail)
             "_record__updated_at",
           SqlExpr.aliasAs (validity_expression_ne "_record__valid_from" "GREATEST" leftTable tail)
             "_record__valid_from",
           SqlExpr.aliasAs (validity_expression_ne "_record__valid_to" "LEAST" leftTable tail)
             "_record__valid_to",
           SqlExpr.aliasAs (validity_expression_ne "_record__is_current" "LEAST" leftTable tail)
             "_record__is_current"],
        fromSource := "dab.hook.frame__" ++ name,
        joins := jd.joins,
        whereClause :=
          some (SqlExpr.between
            (validity_expression_ne "_record__updated_at" "GREATEST" leftTable tail)
            startTs endTs),
        ctes := [] }

/- ------------------------------------------------------------------
   dar/dar__event__blueprint.py — the Event Unpivot Builder
   ------------------------------------------------------------------ -/

/-- An event declaration of a frame: YAML keys `name`, `source`,
`join_on`, `expression`. -/
structure EventDef where
  name : Option String
  source : Option String
  joinOn : Option String
  expression : Option String
deriving DecidableEq, Repr

/-- The table part of a dotted source name (`source.split(".")[-1]`). -/
def sourceTablePart (source : String) : String :=
  (source.splitOn ".").getLast? |>.getD ""

/-- The per-event columns and names collected by the loop of
`build_event_bridge_sql` (dar__event__blueprint.py:38-61): events with a
falsy name or falsy expression are skipped; each kept event contributes
`CAST(<source_table>.<expression> AS TIMESTAMP) AS <name>`. -/
def event_columns_and_names (frameName : String) (events : List EventDef) :
    List SqlExpr × List String :=
  events.foldl
    (fun acc e =>
      match validHookName e.name, validHookName e.expression with
      | some n, some ex =>
        let source := e.source.getD ("dab.hook." ++ frameName)
        (acc.1 ++ [SqlExpr.aliasAs
            (SqlExpr.cast (SqlExpr.col (sourceTablePart source) ex) SqlType.timestamp) n],
         acc.2 ++ [n])
      | _, _ => acc)
    ([], [])

/-- The zero-valid-events early return of `build_event_bridge_sql`
(dar__event__blueprint.py:63-65): `SELECT 1 WHERE FALSE` — always-false,
but carrying only the literal `1`, not the declared output column shape. -/
def event_empty_plan : SelectPlan :=
  { projections := [SqlExpr.litNum 1],
    fromSource := "",
    joins := [],
    whereClause := some SqlExpr.falseE,
    ctes := [] }

/-- The guard of `build_event_bridge_sql` (dar__event__blueprint.py:63-65):
`some event_empty_plan` when the frame declares zero valid events; `none`
means the full unpivot plan (not examined by any claim) is built instead. -/
def build_event_bridge_sql_empty (frameName : String) (events : List EventDef) :
    Option SelectPlan :=
  if (event_columns_and_names frameName events).2.isEmpty then some event_empty_plan
  else none

/- ------------------------------------------------------------------
   Catalog-wide generation (modelled) and semantic helper definitions.
   ------------------------------------------------------------------ -/

/-- Modelled from the spec: the blueprint mechanism that instantiates one
model per catalog entry and invokes the entrypoint once per frame lives in
the external SQLMesh framework, not in this repository's sources; per the
spec each frame's plan is built independently and a per-frame failure
"must not abort other frames".  Generation over a catalog is therefore a
map of the per-frame entrypoint. -/
def generate_hook_catalog (frames : List Frame) (metadata : String → List String)
    (startTs endTs : SqlExpr) : List (String × Except String SelectPlan) :=
  (filter_frames frames).map
    (fun f => (f.name, hook_entrypoint f.name f.hooks f.compositeHooks metadata startTs endTs))

/-- The separator literal of the point-in-time hook expression. -/
def pit_separator : String := "~epoch__valid_from|"

/-- Semantic value of the point-in-time hook: primary hook value, the
separator, then the textual `valid_from`. -/
def pitValue (hookVal validFrom : String) : String :=
  hookVal ++ pit_separator ++ validFrom

/-- A row of a hooked/bridge frame as seen by the interval join: the hook
value and the half-open validity window `[validFrom, validTo)`. -/
structure BridgeRow where
  hookValue : String
  validFrom : Int
  validTo : Int
deriving DecidableEq, Repr

/-- Boolean form of the generated join condition: hook equality plus the
strict interval-overlap test. -/
def overlapJoinB (l r : BridgeRow) : Bool :=
  decide (l.hookValue = r.hookValue) && decide (l.validFrom < r.validTo)
    && decide (l.validTo > r.validFrom)

/-- The rows of the right table a given left row joins to under the
generated ON condition. -/
def interval_overlap_matches (l : BridgeRow) (rs : List BridgeRow) : List BridgeRow :=
  rs.filter (fun r => overlapJoinB l r)

/-- Environment giving the generated join condition its two rows: columns
of `leftTable` come from `l`, columns of `rightName` from `r`. -/
def joinEnv (leftTable rightName : String) (l r : BridgeRow) :
    String → String → Value :=
  fun t c =>
    if t = leftTable then
      if c = "_record__valid_from" then Value.vInt l.validFrom
      else if c = "_record__valid_to" then Value.vInt l.validTo
      else Value.vStr l.hookValue
    else if t = rightName then
      if c = "_record__valid_from" then Value.vInt r.validFrom
      else if c = "_record__valid_to" then Value.vInt r.validTo
      else Value.vStr r.hookValue
    else Value.vNull

/-- Environment assigning every table's aggregated-validity column the
integer produced by `vals`. -/
def intEnv (vals : String → Int) : String → String → Value :=
  fun t _ => Value.vInt (vals t)

/-- Environment for the incremental-window filter: the designated
`_record__updated_at` column evaluates to `x`. -/
def updatedAtEnv (x : Int) : String → String → Value :=
  fun _ c => if c = "_record__updated_at" then Value.vInt x else Value.vNull

/-- Semantic value of `CONCAT_WS('~', ...)` on child-hook values:
NULL children are omitted entirely — no sentinel takes their place. -/
def concatWsVals (vals : List (Option String)) : String :=
  String.intercalate "~" (vals.filterMap id)

/-- Follows the spec's words, for comparison with `find_primary_hook`: the
name field of the earliest-listed hook marked primary (simple hooks before
composite hooks). -/
def first_primary_spec (hooks : List SimpleHook) (comps : List CompositeHook) :
    Option String :=
  match (hooks.map (fun h => (h.name, h.primary)) ++
      comps.map (fun h => (h.name, h.primary))).find? (fun np => np.2) with
  | some np => np.1
  | none => none

/-- The truthy names of the hooks marked primary, in list order. -/
def namedPrimaries (hooks : List SimpleHook) : List String :=
  hooks.filterMap (fun h => if h.primary then validHookName h.name else none)

/-- The truthy names of the composite hooks marked primary, in list order. -/
def namedPrimariesC (comps : List CompositeHook) : List String :=
  comps.filterMap (fun h => if h.primary then validHookName h.name else none)

/-- Follows the observed override logic, for comparison with
`hook_resolver_primary`: the LAST truthy primary of each category, with a
composite primary taking precedence over any simple primary. -/
def last_primary_spec (hooks : List SimpleHook) (comps : List CompositeHook) :
    Option String :=
  match (namedPrimariesC comps).getLast? with
  | some c => some c
  | none => (namedPrimaries hooks).getLast?

/-- Last element of a list, or the default when the list is empty (the
shape of the `primary_hook` accumulator of `process_hooks`). -/
def lastOr : List String → Option String → Option String
  | [], p => p
  | x :: xs, _ => lastOr xs (some x)

/- ------------------------------------------------------------------
   Supporting lemmas for the hash semantics.
   ------------------------------------------------------------------ -/

theorem evalArgs_eq_map (sha : String → String) (env : String → String → Value)
    (l : List SqlExpr) : evalArgs sha env l = l.map (evalExpr sha env) := by
  induction l with
  | nil => rfl
  | cons e es ih => simp [evalArgs, ih]

theorem applyFn_concat (sha : String → String) (vs : List Value) :
    applyFn sha "CONCAT" vs = concatTexts vs := by
  simp [applyFn]

theorem applyFn_coalesce (sha : String → String) (vs : List Value) :
    applyFn sha "COALESCE" vs = coalesceVals vs := by
  simp [applyFn]

theorem applyFn_sha256 (sha : String → String) (v : Value) :
    applyFn sha "SHA256" [v]
      = match v.asText? with
        | some s => Value.vStr (sha s)
        | none => Value.vNull := by
  simp [applyFn]

theorem eval_coalesce_sentinel (sha : String → String) (env : String → String → Value)
    (f : SqlExpr) :
    evalExpr sha env (coalesce_sentinel f)
      = Value.vStr (renderHashField ((evalExpr sha env f).asText?)) := by
  simp only [coalesce_sentinel, evalExpr, evalArgs, applyFn_coalesce]
  cases h : evalExpr sha env f <;> simp [Value.toText, Value.asText?, coalesceVals,
    renderHashField]

theorem intercalate_go_eq (l : List String) (acc : String) :
    String.intercalate.go acc "|" l = acc ++ sepJoin l := by
  induction l generalizing acc with
  | nil => simp [String.intercalate.go, sepJoin, String.append_empty]
  | cons a l ih =>
    simp only [String.intercalate.go, sepJoin, ih, String.append_assoc]

theorem intercalate_cons (x : String) (xs : List String) :
    String.intercalate "|" (x :: xs) = x ++ sepJoin xs := by
  simp [String.intercalate, intercalate_go_eq]

theorem concatTexts_vStr_cons (s : String) (vs : List Value) (rest : String)
    (h : concatTexts vs = Value.vStr rest) :
    concatTexts (Value.vStr s :: vs) = Value.vStr (s ++ rest) := by
  simp [concatTexts, Value.asText?, h]

theorem concat_sep_fields (sha : String → String) (env : String → String → Value)
    (fs : List SqlExpr) :
    concatTexts (evalArgs sha env (hash_sep_fields fs))
      = Value.vStr (sepJoin (fs.map (fun f => renderHashField ((evalExpr sha env f).asText?)))) := by
  induction fs with
  | nil => rfl
  | cons f fs ih =>
    simp only [hash_sep_fields, evalArgs, eval_coalesce_sentinel, List.map_cons, sepJoin]
    simp only [concatTexts, ih, Value.asText?, evalExpr, String.append_assoc]

/-- Core hash-semantics lemma: evaluating the generated `hash_columns`
expression yields the abstract SHA256 of the sentinel-rendered, `"|"`-joined
field values, in field order. -/
theorem eval_hash_columns (sha : String → String) (env : String → String → Value)
    (fields : List SqlExpr) :
    evalExpr sha env (hash_columns fields)
      = Value.vStr (sha (hashConcatInput
          (fields.map (fun f => (evalExpr sha env f).asText?)))) := by
  cases fields with
  | nil =>
    show applyFn sha "SHA256" [applyFn sha "CONCAT" []] = _
    rw [applyFn_concat]
    show applyFn sha "SHA256" [concatTexts []] = _
    rw [show concatTexts [] = Value.vStr "" from rfl, applyFn_sha256]
    rfl
  | cons f fs =>
    show applyFn sha "SHA256"
        [applyFn sha "CONCAT" (evalArgs sha env (hash_string_fields (f :: fs)))] = _
    rw [applyFn_concat]
    have h1 : evalArgs sha env (hash_string_fields (f :: fs))
        = evalExpr sha env (coalesce_sentinel f) :: evalArgs sha env (hash_sep_fields fs) := rfl
    rw [h1, eval_coalesce_sentinel]
    have h2 : concatTexts (Value.vStr (renderHashField ((evalExpr sha env f).asText?))
          :: evalArgs sha env (hash_sep_fields fs))
        = Value.vStr (renderHashField ((evalExpr sha env f).asText?)
            ++ sepJoin (fs.map (fun g => renderHashField ((evalExpr sha env g).asText?)))) :=
      concatTexts_vStr_cons _ _ _ (concat_sep_fields sha env fs)
    rw [h2, applyFn_sha256]
    simp only [hashConcatInput, List.map_cons, List.map_map, intercalate_cons, Value.asText?]
    rfl

/- ------------------------------------------------------------------
   Lemmas about the ROW_NUMBER deduplication order.
   ------------------------------------------------------------------ -/

theorem lex_key_lt {a b jv iv n : ℕ} (hj : jv < n) (hi : iv < n) :
    (a < b ∨ (a = b ∧ jv < iv)) ↔ a * n + jv < b * n + iv := by
  constructor
  · rintro (hab | ⟨rfl, hj'⟩)
    · calc a * n + jv < a * n + n := by omega
        _ = (a + 1) * n := by ring
        _ ≤ b * n := Nat.mul_le_mul_right n hab
        _ ≤ b * n + iv := by omega
    · omega
  · intro h
    rcases lt_trichotomy a b with hab | rfl | hab
    · exact Or.inl hab
    · exact Or.inr ⟨rfl, by omega⟩
    · exfalso
      have : b * n + iv < a * n + jv := by
        calc b * n + iv < b * n + n := by omega
          _ = (b + 1) * n := by ring
          _ ≤ a * n := Nat.mul_le_mul_right n hab
          _ ≤ a * n + jv := by omega
      omega

theorem key_inj {a b jv iv n : ℕ} (hj : jv < n) (hi : iv < n)
    (h : a * n + jv = b * n + iv) : a = b ∧ jv = iv := by
  rcases lt_trichotomy a b with hab | rfl | hab
  · have := (lex_key_lt hj hi).1 (Or.inl hab); omega
  · exact ⟨rfl, by omega⟩
  · have := (lex_key_lt hi hj).1 (Or.inl hab); omega

theorem precedesB_iff_key (rs : List SrcRow) (j i : Fin rs.length) :
    precedesB (rs.get j) (rs.get i) j.val i.val = true ↔ sortKey rs j < sortKey rs i := by
  simp only [precedesB, sortKey, Bool.or_eq_true, Bool.and_eq_true, decide_eq_true_eq]
  exact lex_key_lt j.isLt i.isLt

theorem sortKey_inj (rs : List SrcRow) (i j : Fin rs.length)
    (h : sortKey rs i = sortKey rs j) : i = j := by
  have := key_inj i.isLt j.isLt h
  exact Fin.ext this.2

theorem rowVersionOne_iff (rs : List SrcRow) (i : Fin rs.length) :
    rowVersionOne rs i = true ↔
      ∀ j : Fin rs.length, (rs.get j).hash = (rs.get i).hash →
        precedesB (rs.get j) (rs.get i) j.val i.val = false := by
  simp only [rowVersionOne, List.all_eq_true, Bool.not_eq_true', Bool.and_eq_false_iff,
    decide_eq_false_iff_not]
  constructor
  · intro h j hj
    rcases h j (List.mem_finRange j) with h' | h'
    · exact absurd hj h'
    · exact h'
  · intro h j _
    by_cases hj : (rs.get j).hash = (rs.get i).hash
    · exact Or.inr (h j hj)
    · exact Or.inl hj

/-- Among the rows carrying a given record hash, exactly one gets
`_record__hash__version = 1`. -/
theorem rowVersionOne_existsUnique (rs : List SrcRow) (h : String)
    (hex : ∃ i : Fin rs.length, (rs.get i).hash = h) :
    ∃! i : Fin rs.length, rowVersionOne rs i = true ∧ (rs.get i).hash = h := by
  classical
  obtain ⟨i₀, hi₀⟩ := hex
  set s : Finset (Fin rs.length) :=
    Finset.univ.filter (fun i => (rs.get i).hash = h) with hs
  have hne : s.Nonempty :=
    ⟨i₀, by
      simp only [hs, Finset.mem_filter, Finset.mem_univ, true_and]
      exact hi₀⟩
  obtain ⟨m, hm, hmin⟩ := Finset.exists_min_image s (sortKey rs) hne
  have hmh : (rs.get m).hash = h := by
    have := hm
    simp only [hs, Finset.mem_filter, Finset.mem_univ, true_and] at this
    exact this
  have hkeep : rowVersionOne rs m = true := by
    rw [rowVersionOne_iff]
    intro j hj
    by_contra hne'
    have ht : precedesB (rs.get j) (rs.get m) j.val m.val = true := by
      revert hne'
      cases precedesB (rs.get j) (rs.get m) j.val m.val <;> simp
    have hlt := (precedesB_iff_key rs j m).1 ht
    have hjs : j ∈ s := by
      simp only [hs, Finset.mem_filter, Finset.mem_univ, true_and]
      exact hj.trans hmh
    have := hmin j hjs
    omega
  refine ⟨m, ⟨hkeep, hmh⟩, ?_⟩
  intro y hy
  by_contra hne'
  have hyh : (rs.get y).hash = (rs.get m).hash := by rw [hy.2, hmh]
  have hkey : sortKey rs y ≠ sortKey rs m := fun hk => hne' (sortKey_inj rs y m hk)
  rcases Nat.lt_or_ge (sortKey rs y) (sortKey rs m) with hlt | hge
  · have hz := (rowVersionOne_iff rs m).1 hkeep y hyh
    have ht := (precedesB_iff_key rs y m).2 hlt
    rw [hz] at ht
    exact Bool.false_ne_true ht
  · have hlt : sortKey rs m < sortKey rs y := by omega
    have hz := (rowVersionOne_iff rs y).1 hy.1 m (by rw [hmh, hy.2])
    have ht := (precedesB_iff_key rs m y).2 hlt
    rw [hz] at ht
    exact Bool.false_ne_true ht

/-- A rank-1 row has the minimal `loadedAt` of its hash partition. -/
theorem rowVersionOne_min_loadedAt (rs : List SrcRow) (i : Fin rs.length)
    (hkeep : rowVersionOne rs i = true) (j : Fin rs.length)
    (hj : (rs.get j).hash = (rs.get i).hash) :
    (rs.get i).loadedAt ≤ (rs.get j).loadedAt := by
  have h := (rowVersionOne_iff rs i).1 hkeep j hj
  simp only [precedesB, Bool.or_eq_false_iff, Bool.and_eq_false_iff,
    decide_eq_false_iff_not] at h
  omega

/-- Membership in the final plan output: a row appears iff it is the
rank-1 representative of its hash partition and its hash is not already
present in the anti-join target. -/
theorem raw_plan_rows_mem (rs : List SrcRow) (target : List String) (r : SrcRow) :
    r ∈ raw_plan_rows rs target ↔
      (∃ i : Fin rs.length, rowVersionOne rs i = true ∧ rs.get i = r)
        ∧ target.contains r.hash = false := by
  simp only [raw_plan_rows, raw_anti_join, raw_dedup, List.mem_filter, List.mem_map,
    Bool.not_eq_true', List.mem_finRange, true_and]

/- ------------------------------------------------------------------
   Injectivity of the point-in-time hook value.
   ------------------------------------------------------------------ -/

theorem cons_marker_inj {α : Type} {c : α} {t₁ t₂ s₁ s₂ : List α}
    (h : t₁ ++ c :: s₁ = t₂ ++ c :: s₂) (h₁ : c ∉ t₁) (h₂ : c ∉ t₂) :
    t₁ = t₂ ∧ s₁ = s₂ := by
  induction t₁ generalizing t₂ with
  | nil =>
    cases t₂ with
    | nil => simpa using h
    | cons b t₂ =>
      exfalso
      simp only [List.nil_append, List.cons_append, List.cons.injEq] at h
      exact h₂ (h.1 ▸ List.mem_cons_self b t₂)
  | cons a t₁ ih =>
    cases t₂ with
    | nil =>
      exfalso
      simp only [List.nil_append, List.cons_append, List.cons.injEq] at h
      exact h₁ (h.1.symm ▸ List.mem_cons_self a t₁)
    | cons b t₂ =>
      simp only [List.cons_append, List.cons.injEq] at h
      obtain ⟨rfl, h'⟩ := h
      have := ih h' (fun hc => h₁ (List.mem_cons_of_mem a hc))
        (fun hc => h₂ (List.mem_cons_of_mem a hc))
      exact ⟨by rw [this.1], this.2⟩

theorem marker_last_inj {α : Type} {c : α} {l₁ l₂ a₁ a₂ : List α}
    (h : l₁ ++ c :: a₁ = l₂ ++ c :: a₂) (h₁ : c ∉ a₁) (h₂ : c ∉ a₂) :
    l₁ = l₂ ∧ a₁ = a₂ := by
  have h' : a₁.reverse ++ c :: l₁.reverse = a₂.reverse ++ c :: l₂.reverse := by
    have hrev := congrArg List.reverse h
    simpa [List.reverse_append, List.append_assoc] using hrev
  have hkey := cons_marker_inj h' (by simpa using h₁) (by simpa using h₂)
  constructor
  · have := congrArg List.reverse hkey.2
    simpa using this
  · have := congrArg List.reverse hkey.1
    simpa using this

theorem applyFn_concat_ws (sha : String → String) (sep : Value) (vs : List Value) :
    applyFn sha "CONCAT_WS" (sep :: vs)
      = match sep.asText? with
        | some s => Value.vStr (String.intercalate s (vs.filterMap Value.asText?))
        | none => Value.vNull := by
  simp [applyFn]

theorem applyFn_greatest (sha : String → String) (vs : List Value) :
    applyFn sha "GREATEST" vs = reduceInts max vs := by
  simp [applyFn]

theorem applyFn_least (sha : String → String) (vs : List Value) :
    applyFn sha "LEAST" vs = reduceInts min vs := by
  simp [applyFn]

/-- The generated window filter `x BETWEEN start_ts AND end_ts` evaluates
as a closed interval: true iff `start ≤ x` and `x ≤ end`. -/
theorem eval_between_updated_at (sha : String → String) (x s e : Int) :
    evalExpr sha (updatedAtEnv x)
        (SqlExpr.between (SqlExpr.col "" "_record__updated_at")
          (SqlExpr.litNum s) (SqlExpr.litNum e))
      = Value.vBool (decide (s ≤ x) && decide (x ≤ e)) := by
  simp [evalExpr, updatedAtEnv, Value.betweenV]

/-- Evaluating the generated point-in-time hook expression yields
`pitValue` of the primary-hook value and the textual `valid_from`. -/
theorem eval_primary_hook_expression (p : String) (hp : p ≠ "")
    (sha : String → String) (env : String → String → Value) (hv vf : String)
    (henv1 : env "" p = Value.vStr hv)
    (henv2 : env "" "_record__valid_from" = Value.vStr vf) :
    ∃ e, build_primary_hook_expression (some p) = some e
      ∧ aliasOf e = "_pit" ++ p
      ∧ evalExpr sha env e = Value.vStr (pitValue hv vf) := by
  refine ⟨SqlExpr.aliasAs
      (SqlExpr.fn "CONCAT"
        [SqlExpr.col "" p,
         SqlExpr.litStr "~epoch__valid_from|",
         SqlExpr.cast (SqlExpr.col "" "_record__valid_from") SqlType.text])
      ("_pit" ++ p), ?_, rfl, ?_⟩
  · simp [build_primary_hook_expression, validHookName, hp]
  · show applyFn sha "CONCAT" _ = _
    rw [applyFn_concat]
    have hargs : evalArgs sha env
        [SqlExpr.col "" p,
         SqlExpr.litStr "~epoch__valid_from|",
         SqlExpr.cast (SqlExpr.col "" "_record__valid_from") SqlType.text]
        = [Value.vStr hv, Value.vStr "~epoch__valid_from|", Value.vStr vf] := by
      simp [evalArgs, evalExpr, henv1, henv2, Value.toText]
    rw [hargs]
    simp only [concatTexts, Value.asText?]
    simp [pitValue, pit_separator, String.append_assoc, String.append_empty]

theorem pitValue_inj (h₁ h₂ v₁ v₂ : String)
    (n₁ : '~' ∉ v₁.data) (n₂ : '~' ∉ v₂.data) :
    pitValue h₁ v₁ = pitValue h₂ v₂ ↔ h₁ = h₂ ∧ v₁ = v₂ := by
  constructor
  · intro he
    have hd : h₁.data ++ '~' :: ("epoch__valid_from|".data ++ v₁.data)
        = h₂.data ++ '~' :: ("epoch__valid_from|".data ++ v₂.data) := by
      have := congrArg String.data he
      simpa [pitValue, pit_separator, String.data_append] using this
    have hnot : ∀ v : String, '~' ∉ v.data →
        '~' ∉ "epoch__valid_from|".data ++ v.data := by
      intro v hv hmem
      rcases List.mem_append.1 hmem with hmem | hmem
      · revert hmem
        decide
      · exact hv hmem
    have := marker_last_inj hd (hnot v₁ n₁) (hnot v₂ n₂)
    refine ⟨String.ext this.1, String.ext ?_⟩
    exact List.append_cancel_left this.2
  · rintro ⟨rfl, rfl⟩
    rfl

/- ------------------------------------------------------------------
   Characterisation of primary-hook selection.
   ------------------------------------------------------------------ -/

theorem lastOr_eq_getLast? (l : List String) (p : Option String) :
    lastOr l p = match l.getLast? with | some x => some x | none => p := by
  induction l generalizing p with
  | nil => rfl
  | cons x xs ih =>
    cases xs with
    | nil => simp [lastOr]
    | cons y ys =>
      rw [show lastOr (x :: y :: ys) p = lastOr (y :: ys) (some x) from rfl, ih]
      rw [List.getLast?_cons_cons]
      rcases h : (y :: ys).getLast? with _ | z
      · exact absurd h (by simp)
      · rfl

theorem process_hooks_primary_foldl (hooks : List SimpleHook)
    (l : List String) (p : Option String) (e : List SqlExpr) :
    (hooks.foldl process_hooks_step (l, p, e)).2.1 = lastOr (namedPrimaries hooks) p := by
  induction hooks generalizing l p e with
  | nil => rfl
  | cons h hooks ih =>
    rcases hv : validHookName h.name with _ | n
    · have hstep : process_hooks_step (l, p, e) h = (l, p, e) := by
        simp [process_hooks_step, hv]
      have hname : namedPrimaries (h :: hooks) = namedPrimaries hooks := by
        simp [namedPrimaries, List.filterMap_cons]
        rcases hp : h.primary <;> simp [hp, hv]
      rw [List.foldl_cons, hstep, hname, ih]
    · rcases hp : h.primary
      · have hstep : process_hooks_step (l, p, e) h
            = (l ++ [n], p,
               e ++ (match build_hook_expression h with | some x => [x] | none => [])) := by
          simp [process_hooks_step, hv, hp]
        have hname : namedPrimaries (h :: hooks) = namedPrimaries hooks := by
          simp [namedPrimaries, List.filterMap_cons, hp]
        rw [List.foldl_cons, hstep, hname, ih]
      · have hstep : process_hooks_step (l, p, e) h
            = (l ++ [n], some n,
               e ++ (match build_hook_expression h with | some x => [x] | none => [])) := by
          simp [process_hooks_step, hv, hp]
        have hname : namedPrimaries (h :: hooks) = n :: namedPrimaries hooks := by
          simp [namedPrimaries, List.filterMap_cons, hp, hv]
        rw [List.foldl_cons, hstep, hname, ih]
        rfl

theorem process_composite_hooks_primary_foldl (comps : List CompositeHook)
    (l : List String) (p : Option String) (e : List SqlExpr) :
    (comps.foldl process_composite_hooks_step (l, p, e)).2.1
      = lastOr (namedPrimariesC comps) p := by
  induction comps generalizing l p e with
  | nil => rfl
  | cons h comps ih =>
    rcases hv : validHookName h.name with _ | n
    · have hstep : process_composite_hooks_step (l, p, e) h = (l, p, e) := by
        simp [process_composite_hooks_step, hv]
      have hname : namedPrimariesC (h :: comps) = namedPrimariesC comps := by
        simp [namedPrimariesC, List.filterMap_cons]
        rcases hp : h.primary <;> simp [hp, hv]
      rw [List.foldl_cons, hstep, hname, ih]
    · rcases hp : h.primary
      · have hstep : process_composite_hooks_step (l, p, e) h
            = (l ++ [n], p,
               e ++ (match build_composite_hook_expression h with
                     | some x => [x] | none => [])) := by
          simp [process_composite_hooks_step, hv, hp]
        have hname : namedPrimariesC (h :: comps) = namedPrimariesC comps := by
          simp [namedPrimariesC, List.filterMap_cons, hp]
        rw [List.foldl_cons, hstep, hname, ih]
      · have hstep : process_composite_hooks_step (l, p, e) h
            = (l ++ [n], some n,
               e ++ (match build_composite_hook_expression h with
                     | some x => [x] | none => [])) := by
          simp [process_composite_hooks_step, hv, hp]
        have hname : namedPrimariesC (h :: comps) = n :: namedPrimariesC comps := by
          simp [namedPrimariesC, List.filterMap_cons, hp, hv]
        rw [List.foldl_cons, hstep, hname, ih]
        rfl

theorem process_hooks_primary (hooks : List SimpleHook) :
    (process_hooks hooks).2.1 = (namedPrimaries hooks).getLast? := by
  rw [process_hooks, process_hooks_primary_foldl, lastOr_eq_getLast?]
  cases (namedPrimaries hooks).getLast? <;> rfl

theorem process_composite_hooks_primary (comps : List CompositeHook) :
    (process_composite_hooks comps).2.1 = (namedPrimariesC comps).getLast? := by
  rw [process_composite_hooks, process_composite_hooks_primary_foldl, lastOr_eq_getLast?]
  cases (namedPrimariesC comps).getLast? <;> rfl

/-- The Hook Resolver's effective primary hook is the LAST truthy primary,
composite hooks overriding simple hooks. -/
theorem hook_resolver_primary_eq_last (hooks : List SimpleHook)
    (comps : List CompositeHook) :
    hook_resolver_primary hooks comps = last_primary_spec hooks comps := by
  rw [hook_resolver_primary, last_primary_spec, process_hooks_primary,
    process_composite_hooks_primary]

/-- The Bridge Join Planner's `find_primary_hook` is the FIRST hook marked
primary, simple hooks scanned before composite hooks. -/
theorem find_primary_hook_eq_first (hooks : List SimpleHook)
    (comps : List CompositeHook) :
    find_primary_hook hooks comps = first_primary_spec hooks comps := by
  induction hooks with
  | nil =>
    induction comps with
    | nil => rfl
    | cons c comps ihc =>
      rcases hp : c.primary
      · simpa [find_primary_hook, first_primary_spec, List.find?_cons, hp]
          using ihc
      · simp [find_primary_hook, first_primary_spec, List.find?_cons, hp]
  | cons h hooks ih =>
    rcases hp : h.primary
    · simpa [find_primary_hook, first_primary_spec, List.find?_cons, hp] using ih
    · simp [find_primary_hook, first_primary_spec, List.find?_cons, hp]

/- ------------------------------------------------------------------
   Semantics of the aggregated validity expressions.
   ------------------------------------------------------------------ -/

theorem intsOf_map_vInt (vals : String → Int) (l : List String) :
    intsOf (l.map (fun t => Value.vInt (vals t))) = some (l.map vals) := by
  induction l with
  | nil => rfl
  | cons t l ih => simp [intsOf, ih]

theorem eval_validity_greatest (sha : String → String) (vals : String → Int)
    (c t₀ : String) (rest : List String) :
    evalExpr sha (intEnv vals) (validity_expression_ne c "GREATEST" t₀ rest)
      = Value.vInt (List.foldl max (vals t₀) (rest.map vals)) := by
  cases rest with
  | nil => simp [validity_expression_ne, evalExpr, intEnv]
  | cons r rs =>
    show applyFn sha "GREATEST" (evalArgs sha (intEnv vals) _) = _
    rw [applyFn_greatest, evalArgs_eq_map]
    have hm : List.map (evalExpr sha (intEnv vals))
          (List.map (fun t => SqlExpr.col t c) (t₀ :: r :: rs))
        = (t₀ :: r :: rs).map (fun t => Value.vInt (vals t)) := by
      simp [evalExpr, intEnv]
    rw [hm]
    show reduceInts max (List.map (fun t => Value.vInt (vals t)) (t₀ :: r :: rs)) = _
    rw [reduceInts, intsOf_map_vInt vals (t₀ :: r :: rs)]
    simp [List.foldl_cons]

theorem eval_validity_least (sha : String → String) (vals : String → Int)
    (c t₀ : String) (rest : List String) :
    evalExpr sha (intEnv vals) (validity_expression_ne c "LEAST" t₀ rest)
      = Value.vInt (List.foldl min (vals t₀) (rest.map vals)) := by
  cases rest with
  | nil => simp [validity_expression_ne, evalExpr, intEnv]
  | cons r rs =>
    show applyFn sha "LEAST" (evalArgs sha (intEnv vals) _) = _
    rw [applyFn_least, evalArgs_eq_map]
    have hm : List.map (evalExpr sha (intEnv vals))
          (List.map (fun t => SqlExpr.col t c) (t₀ :: r :: rs))
        = (t₀ :: r :: rs).map (fun t => Value.vInt (vals t)) := by
      simp [evalExpr, intEnv]
    rw [hm]
    show reduceInts min (List.map (fun t => Value.vInt (vals t)) (t₀ :: r :: rs)) = _
    rw [reduceInts, intsOf_map_vInt vals (t₀ :: r :: rs)]
    simp [List.foldl_cons]

/-- The Python `validity_expression` agrees with its total form on the
non-empty table lists the bridge entrypoint passes. -/
theorem validity_expression_eq_ne (c f t₀ : String) (rest : List String) :
    validity_expression c f (t₀ :: rest) = some (validity_expression_ne c f t₀ rest) := by
  cases rest <;> rfl

theorem foldl_min_eq_one_iff (ns : List Int) (n₀ : Int)
    (h₀ : n₀ = 0 ∨ n₀ = 1) (hs : ∀ x ∈ ns, x = 0 ∨ x = 1) :
    List.foldl min n₀ ns = 1 ↔ (n₀ = 1 ∧ ∀ x ∈ ns, x = 1) := by
  induction ns generalizing n₀ with
  | nil => simp
  | cons x ns ih =>
    have hx : x = 0 ∨ x = 1 := hs x (List.mem_cons_self x ns)
    have h₀' : min n₀ x = 0 ∨ min n₀ x = 1 := by omega
    rw [List.foldl_cons, ih (min n₀ x) h₀'
      (fun y hy => hs y (List.mem_cons_of_mem x hy))]
    have hmin : min n₀ x = 1 ↔ n₀ = 1 ∧ x = 1 := by omega
    simp only [List.mem_cons, hmin]
    constructor
    · rintro ⟨⟨h1, h2⟩, h3⟩
      exact ⟨h1, fun y hy => by rcases hy with rfl | hy; exact h2; exact h3 y hy⟩
    · rintro ⟨h1, h2⟩
      exact ⟨⟨h1, h2 x (Or.inl rfl)⟩, fun y hy => h2 y (Or.inr hy)⟩

theorem foldl_min_le_init (ns : List Int) (n₀ : Int) :
    List.foldl min n₀ ns ≤ n₀ := by
  induction ns generalizing n₀ with
  | nil => simp
  | cons x ns ih =>
    rw [List.foldl_cons]
    calc List.foldl min (min n₀ x) ns ≤ min n₀ x := ih (min n₀ x)
      _ ≤ n₀ := by omega

theorem foldl_min_le_mem (ns : List Int) (n₀ x : Int) (hx : x ∈ ns) :
    List.foldl min n₀ ns ≤ x := by
  induction ns generalizing n₀ with
  | nil => cases hx
  | cons y ns ih =>
    rw [List.foldl_cons]
    rcases List.mem_cons.1 hx with rfl | hx'
    · calc List.foldl min (min n₀ x) ns ≤ min n₀ x := foldl_min_le_init ns (min n₀ x)
        _ ≤ x := by omega
    · exact ih (min n₀ y) hx'

theorem foldl_min_nonneg (ns : List Int) (n₀ : Int) (h₀ : 0 ≤ n₀)
    (hs : ∀ x ∈ ns, 0 ≤ x) : 0 ≤ List.foldl min n₀ ns := by
  induction ns generalizing n₀ with
  | nil => simpa
  | cons x ns ih =>
    rw [List.foldl_cons]
    have hx : 0 ≤ x := hs x (List.mem_cons_self x ns)
    exact ih (min n₀ x) (by omega) (fun y hy => hs y (List.mem_cons_of_mem x hy))

/- ------------------------------------------------------------------
   Semantics of the generated interval join and of the composite hook.
   ------------------------------------------------------------------ -/

theorem eval_join_on (sha : String → String) (fk leftTable rightName : String)
    (hne : leftTable ≠ rightName)
    (h1 : fk ≠ "_record__valid_from") (h2 : fk ≠ "_record__valid_to")
    (l r : BridgeRow) :
    evalExpr sha (joinEnv leftTable rightName l r)
        (SqlExpr.andE
          (SqlExpr.andE
            (SqlExpr.eqE (SqlExpr.col leftTable fk) (SqlExpr.col rightName fk))
            (SqlExpr.ltE (SqlExpr.col leftTable "_record__valid_from")
              (SqlExpr.col rightName "_record__valid_to")))
          (SqlExpr.gtE (SqlExpr.col leftTable "_record__valid_to")
            (SqlExpr.col rightName "_record__valid_from")))
      = Value.vBool (overlapJoinB l r) := by
  have hne' : rightName ≠ leftTable := Ne.symm hne
  simp [evalExpr, joinEnv, hne', h1, h2, Value.eqV, Value.ltV, Value.gtV, Value.andV,
    overlapJoinB, Bool.and_assoc]

theorem eval_composite_hook_expression (name : String) (hn : name ≠ "")
    (c : String) (cs : List String) (prim : Bool)
    (sha : String → String) (env : String → String → Value) :
    ∃ e, build_composite_hook_expression ⟨some name, c :: cs, prim⟩ = some e
      ∧ aliasOf e = name
      ∧ evalExpr sha env e
        = Value.vStr (concatWsVals
            ((c :: cs).map (fun child => (env "" child).asText?))) := by
  refine ⟨SqlExpr.aliasAs
      (SqlExpr.fn "CONCAT_WS"
        (SqlExpr.litStr "~" :: (c :: cs).map (fun child => SqlExpr.col "" child)))
      name, ?_, rfl, ?_⟩
  · simp [build_composite_hook_expression, validHookName, hn]
  · show applyFn sha "CONCAT_WS"
        (evalArgs sha env
          (SqlExpr.litStr "~" :: (c :: cs).map (fun child => SqlExpr.col "" child))) = _
    have hargs : evalArgs sha env
          (SqlExpr.litStr "~" :: (c :: cs).map (fun child => SqlExpr.col "" child))
        = Value.vStr "~" :: (c :: cs).map (fun child => env "" child) := by
      rw [evalArgs_eq_map]
      simp [evalExpr]
    rw [hargs, applyFn_concat_ws]
    show Value.vStr (String.intercalate "~"
        (((c :: cs).map (fun child => env "" child)).filterMap Value.asText?)) = _
    rw [show ((c :: cs).map (fun child => env "" child)).filterMap Value.asText?
        = ((c :: cs).map (fun child => (env "" child).asText?)).filterMap id from by
      rw [List.filterMap_map, List.filterMap_map]
      rfl]
    rfl

/- ------------------------------------------------------------------
   Error paths of the two entrypoints.
   ------------------------------------------------------------------ -/

theorem hook_entrypoint_error (name : String) (hooks : List SimpleHook)
    (comps : List CompositeHook) (metadata : String → List String)
    (s e : SqlExpr)
    (h : validHookName (hook_resolver_primary hooks comps) = none) :
    hook_entrypoint name hooks comps metadata s e
      = Except.error "Primary hook is missing or invalid." := by
  unfold hook_entrypoint
  rcases hv : hook_resolver_primary hooks comps with _ | p
  · rfl
  · have hp : p = "" := by
      rw [hv] at h
      unfold validHookName at h
      by_cases hp' : p = ""
      · exact hp'
      · simp [hp'] at h
    subst hp
    rfl

theorem bridge_entrypoint_error (name : String) (hooks : List SimpleHook)
    (comps : List CompositeHook) (allFrames : List Frame)
    (metadata : String → List String) (s e : SqlExpr)
    (h : validHookName (find_primary_hook hooks comps) = none) :
    bridge_entrypoint name hooks comps allFrames metadata s e
      = Except.error ("No primary hook found for frame " ++ name) := by
  unfold bridge_entrypoint
  rw [h]

/- ==================================================================
   Claim theorems
   ================================================================== -/

/-- C1: the Raw Deduplicator's record hash is `SHA256` of the
sentinel-coalesced, text-cast column values joined by `"|"`, over the
non-`_dlt` columns in metadata order; hashing is order-dependent and
null-safe: `hash(["a", null])`, `hash([null, "a"])` and `hash(["a", ""])`
are pairwise distinct for any injective hash function. -/
theorem raw_record_hash_spec (sha : String → String) (hinj : Function.Injective sha)
    (env : String → String → Value) (fields : List SqlExpr) (cols : List SqlExpr) :
    (evalExpr sha env (hash_columns fields)
      = Value.vStr (sha (hashConcatInput
          (fields.map (fun f => (evalExpr sha env f).asText?)))))
    ∧ (∀ a ∈ get_columns_to_hash cols, a.startsWith "_dlt" = false)
    ∧ List.Sublist (get_columns_to_hash cols) (cols.map aliasOf)
    ∧ sha (hashConcatInput [some "a", none]) ≠ sha (hashConcatInput [none, some "a"])
    ∧ sha (hashConcatInput [some "a", none]) ≠ sha (hashConcatInput [some "a", some ""])
    ∧ sha (hashConcatInput [none, some "a"]) ≠ sha (hashConcatInput [some "a", some ""]) := by
  refine ⟨eval_hash_columns sha env fields, ?_, ?_, ?_, ?_, ?_⟩
  · intro a ha
    simp only [get_columns_to_hash, List.mem_map, List.mem_filter] at ha
    obtain ⟨c, ⟨-, hc⟩, rfl⟩ := ha
    simpa using hc
  · exact List.Sublist.map aliasOf (List.filter_sublist cols)
  · exact hinj.ne (by decide)
  · exact hinj.ne (by decide)
  · exact hinj.ne (by decide)

/-- Witness for C1 at `sha = id`. -/
theorem raw_record_hash_spec_witness :
    Function.Injective (fun s : String => s)
    ∧ ((evalExpr (fun s : String => s) (fun _ _ => Value.vNull) (hash_columns [])
        = Value.vStr ((fun s : String => s) (hashConcatInput
            (([] : List SqlExpr).map
              (fun f => (evalExpr (fun s : String => s) (fun _ _ => Value.vNull) f).asText?)))))
      ∧ (∀ a ∈ get_columns_to_hash [], a.startsWith "_dlt" = false)
      ∧ List.Sublist (get_columns_to_hash []) (([] : List SqlExpr).map aliasOf)
      ∧ (fun s : String => s) (hashConcatInput [some "a", none])
          ≠ (fun s : String => s) (hashConcatInput [none, some "a"])
      ∧ (fun s : String => s) (hashConcatInput [some "a", none])
          ≠ (fun s : String => s) (hashConcatInput [some "a", some ""])
      ∧ (fun s : String => s) (hashConcatInput [none, some "a"])
          ≠ (fun s : String => s) (hashConcatInput [some "a", some ""])) :=
  ⟨fun _ _ hab => hab,
   raw_record_hash_spec (fun s => s) (fun _ _ hab => hab) (fun _ _ => Value.vNull) [] []⟩

/-- C2: among rows sharing a record hash, the generated plan keeps exactly
the rank-1 row of the `ROW_NUMBER` ordering by `loadedAt` ascending — a
row with minimal `loadedAt` in its partition — and the ANTI join drops
kept rows whose hash already exists in the target. -/
theorem raw_dedup_correct (rs : List SrcRow) (target : List String) (h : String)
    (hex : ∃ i : Fin rs.length, (rs.get i).hash = h) :
    (∃! i : Fin rs.length, rowVersionOne rs i = true ∧ (rs.get i).hash = h)
    ∧ (∀ i : Fin rs.length, rowVersionOne rs i = true →
        ∀ j : Fin rs.length, (rs.get j).hash = (rs.get i).hash →
          (rs.get i).loadedAt ≤ (rs.get j).loadedAt)
    ∧ (∀ r : SrcRow, r ∈ raw_plan_rows rs target ↔
        (∃ i : Fin rs.length, rowVersionOne rs i = true ∧ rs.get i = r)
          ∧ target.contains r.hash = false) :=
  ⟨rowVersionOne_existsUnique rs h hex,
   fun i hk j hj => rowVersionOne_min_loadedAt rs i hk j hj,
   fun r => raw_plan_rows_mem rs target r⟩

/-- Witness for C2: two loads of the same logical row. -/
theorem raw_dedup_correct_witness :
    (∃ i : Fin ([⟨[], "A", 5⟩, ⟨[], "A", 3⟩] : List SrcRow).length,
        (([⟨[], "A", 5⟩, ⟨[], "A", 3⟩] : List SrcRow).get i).hash = "A")
    ∧ ((∃! i : Fin ([⟨[], "A", 5⟩, ⟨[], "A", 3⟩] : List SrcRow).length,
          rowVersionOne [⟨[], "A", 5⟩, ⟨[], "A", 3⟩] i = true
            ∧ (([⟨[], "A", 5⟩, ⟨[], "A", 3⟩] : List SrcRow).get i).hash = "A")
      ∧ (∀ i : Fin ([⟨[], "A", 5⟩, ⟨[], "A", 3⟩] : List SrcRow).length,
          rowVersionOne [⟨[], "A", 5⟩, ⟨[], "A", 3⟩] i = true →
          ∀ j : Fin ([⟨[], "A", 5⟩, ⟨[], "A", 3⟩] : List SrcRow).length,
            (([⟨[], "A", 5⟩, ⟨[], "A", 3⟩] : List SrcRow).get j).hash
              = (([⟨[], "A", 5⟩, ⟨[], "A", 3⟩] : List SrcRow).get i).hash →
            (([⟨[], "A", 5⟩, ⟨[], "A", 3⟩] : List SrcRow).get i).loadedAt
              ≤ (([⟨[], "A", 5⟩, ⟨[], "A", 3⟩] : List SrcRow).get j).loadedAt)
      ∧ (∀ r : SrcRow, r ∈ raw_plan_rows [⟨[], "A", 5⟩, ⟨[], "A", 3⟩] ["B"] ↔
          (∃ i : Fin ([⟨[], "A", 5⟩, ⟨[], "A", 3⟩] : List SrcRow).length,
              rowVersionOne [⟨[], "A", 5⟩, ⟨[], "A", 3⟩] i = true
                ∧ ([⟨[], "A", 5⟩, ⟨[], "A", 3⟩] : List SrcRow).get i = r)
            ∧ ["B"].contains r.hash = false)) :=
  ⟨by decide, raw_dedup_correct [⟨[], "A", 5⟩, ⟨[], "A", 3⟩] ["B"] "A" (by decide)⟩

/-- C3: each resolved foreign-hook join is a LEFT join whose condition is
hook equality plus the strict interval-overlap test; periods `[10,20)` and
`[15,25)` with a shared hook produce one joined row, while `[10,20)` and
`[20,30)` produce none. -/
theorem bridge_join_overlap_correct (fk leftTable foreignFrame : String)
    (allFrames : List Frame) (metadata : String → List String)
    (hf : get_foreign_frame_name fk allFrames = some foreignFrame)
    (hne : leftTable ≠ "_bridge__" ++ foreignFrame)
    (h1 : fk ≠ "_record__valid_from") (h2 : fk ≠ "_record__valid_to") :
    ∃ jd, build_join_for_hook fk leftTable allFrames metadata = some jd
      ∧ jd.join.kind = "LEFT"
      ∧ (∀ (sha : String → String) (l r : BridgeRow),
          evalExpr sha (joinEnv leftTable ("_bridge__" ++ foreignFrame) l r) jd.join.onCond
            = Value.vBool (overlapJoinB l r))
      ∧ (∀ l r : BridgeRow, overlapJoinB l r = true ↔
          (l.hookValue = r.hookValue ∧ l.validFrom < r.validTo ∧ l.validTo > r.validFrom))
      ∧ interval_overlap_matches ⟨"hk", 10, 20⟩ [⟨"hk", 15, 25⟩] = [⟨"hk", 15, 25⟩]
      ∧ interval_overlap_matches ⟨"hk", 10, 20⟩ [⟨"hk", 20, 30⟩] = [] := by
  refine ⟨⟨⟨"dar.uss__staging." ++ ("_bridge__" ++ foreignFrame),
      SqlExpr.andE
        (SqlExpr.andE
          (SqlExpr.eqE (SqlExpr.col leftTable fk)
            (SqlExpr.col ("_bridge__" ++ foreignFrame) fk))
          (SqlExpr.ltE (SqlExpr.col leftTable "_record__valid_from")
            (SqlExpr.col ("_bridge__" ++ foreignFrame) "_record__valid_to")))
        (SqlExpr.gtE (SqlExpr.col leftTable "_record__valid_to")
          (SqlExpr.col ("_bridge__" ++ foreignFrame) "_record__valid_from")),
      "LEFT"⟩,
      ((metadata ("dar.uss__staging." ++ ("_bridge__" ++ foreignFrame))).filter
        (fun c => c.startsWith "_pit")).map
        (fun c => SqlExpr.col ("_bridge__" ++ foreignFrame) c),
      "_bridge__" ++ foreignFrame⟩, ?_, rfl, ?_, ?_, by decide, by decide⟩
  · simp [build_join_for_hook, hf]
  · intro sha l r
    exact eval_join_on sha fk leftTable ("_bridge__" ++ foreignFrame) hne h1 h2 l r
  · intro l r
    simp [overlapJoinB, and_assoc]

/-- Witness for C3: a two-frame catalog where `customer_hook` is primary in
the second frame. -/
theorem bridge_join_overlap_correct_witness :
    (get_foreign_frame_name "customer_hook"
        [⟨"orders", [⟨some "order_hook", "k", some "id", true⟩,
                     ⟨some "customer_hook", "k", some "cid", false⟩], [], false⟩,
         ⟨"customers", [⟨some "customer_hook", "k", some "id", true⟩], [], false⟩]
      = some "customers")
    ∧ ("frame__orders" ≠ "_bridge__" ++ "customers")
    ∧ ("customer_hook" ≠ "_record__valid_from")
    ∧ ("customer_hook" ≠ "_record__valid_to")
    ∧ (∃ jd, build_join_for_hook "customer_hook" "frame__orders"
          [⟨"orders", [⟨some "order_hook", "k", some "id", true⟩,
                       ⟨some "customer_hook", "k", some "cid", false⟩], [], false⟩,
           ⟨"customers", [⟨some "customer_hook", "k", some "id", true⟩], [], false⟩]
          (fun _ => []) = some jd
        ∧ jd.join.kind = "LEFT"
        ∧ (∀ (sha : String → String) (l r : BridgeRow),
            evalExpr sha (joinEnv "frame__orders" ("_bridge__" ++ "customers") l r)
                jd.join.onCond
              = Value.vBool (overlapJoinB l r))
        ∧ (∀ l r : BridgeRow, overlapJoinB l r = true ↔
            (l.hookValue = r.hookValue ∧ l.validFrom < r.validTo ∧ l.validTo > r.validFrom))
        ∧ interval_overlap_matches ⟨"hk", 10, 20⟩ [⟨"hk", 15, 25⟩] = [⟨"hk", 15, 25⟩]
        ∧ interval_overlap_matches ⟨"hk", 10, 20⟩ [⟨"hk", 20, 30⟩] = []) :=
  ⟨by decide, by decide, by decide, by decide,
   bridge_join_overlap_correct "customer_hook" "frame__orders" "customers" _ _
     (by decide) (by decide) (by decide) (by decide)⟩

/-- C4: the aggregated validity columns are GREATEST of `updated_at`,
GREATEST of `valid_from`, LEAST of `valid_to` and LEAST of `is_current`;
for a single participating table each degenerates to the bare column; and
with 0/1-valued currency flags the joined row is current (value 1) iff
every participant is current, one non-current participant forcing 0. -/
theorem bridge_validity_aggregation_correct (sha : String → String)
    (vals : String → Int) (t t₀ : String) (rest : List String)
    (h₀ : vals t₀ = 0 ∨ vals t₀ = 1) (hs : ∀ u ∈ rest, vals u = 0 ∨ vals u = 1) :
    (build_validity_expressions [t]
      = ⟨some (SqlExpr.col t "_record__updated_at"),
         some (SqlExpr.col t "_record__valid_from"),
         some (SqlExpr.col t "_record__valid_to"),
         some (SqlExpr.col t "_record__is_current")⟩)
    ∧ (validity_expression "_record__updated_at" "GREATEST" (t₀ :: rest)
        = some (validity_expression_ne "_record__updated_at" "GREATEST" t₀ rest))
    ∧ (evalExpr sha (intEnv vals)
        (validity_expression_ne "_record__updated_at" "GREATEST" t₀ rest)
      = Value.vInt (List.foldl max (vals t₀) (rest.map vals)))
    ∧ (evalExpr sha (intEnv vals)
        (validity_expression_ne "_record__valid_from" "GREATEST" t₀ rest)
      = Value.vInt (List.foldl max (vals t₀) (rest.map vals)))
    ∧ (evalExpr sha (intEnv vals)
        (validity_expression_ne "_record__valid_to" "LEAST" t₀ rest)
      = Value.vInt (List.foldl min (vals t₀) (rest.map vals)))
    ∧ (evalExpr sha (intEnv vals)
        (validity_expression_ne "_record__is_current" "LEAST" t₀ rest)
      = Value.vInt (List.foldl min (vals t₀) (rest.map vals)))
    ∧ (List.foldl min (vals t₀) (rest.map vals) = 1 ↔
        (vals t₀ = 1 ∧ ∀ u ∈ rest, vals u = 1))
    ∧ (∀ u ∈ t₀ :: rest, vals u = 0 →
        List.foldl min (vals t₀) (rest.map vals) = 0) := by
  have hmap : ∀ x ∈ rest.map vals, x = 0 ∨ x = 1 := by
    intro x hx
    obtain ⟨u, hu, rfl⟩ := List.mem_map.1 hx
    exact hs u hu
  refine ⟨rfl, validity_expression_eq_ne _ _ _ _,
    eval_validity_greatest sha vals _ t₀ rest,
    eval_validity_greatest sha vals _ t₀ rest,
    eval_validity_least sha vals _ t₀ rest,
    eval_validity_least sha vals _ t₀ rest, ?_, ?_⟩
  · rw [foldl_min_eq_one_iff (rest.map vals) (vals t₀) h₀ hmap]
    constructor
    · rintro ⟨hh, hall⟩
      exact ⟨hh, fun u hu => hall (vals u) (List.mem_map_of_mem vals hu)⟩
    · rintro ⟨hh, hall⟩
      refine ⟨hh, fun x hx => ?_⟩
      obtain ⟨u, hu, rfl⟩ := List.mem_map.1 hx
      exact hall u hu
  · intro u hu huz
    have hnn : 0 ≤ List.foldl min (vals t₀) (rest.map vals) :=
      foldl_min_nonneg (rest.map vals) (vals t₀) (by omega)
        (fun x hx => by rcases hmap x hx with rfl | rfl <;> omega)
    rcases List.mem_cons.1 hu with rfl | hu'
    · have := foldl_min_le_init (rest.map vals) (vals u)
      omega
    · have := foldl_min_le_mem (rest.map vals) (vals t₀) (vals u)
        (List.mem_map_of_mem vals hu')
      omega

/-- Witness for C4: two tables, the second not current. -/
theorem bridge_validity_aggregation_correct_witness :
    ((fun s : String => if s = "y" then (0 : Int) else 1) "x" = 0
        ∨ (fun s : String => if s = "y" then (0 : Int) else 1) "x" = 1)
    ∧ (∀ u ∈ ["y"], (fun s : String => if s = "y" then (0 : Int) else 1) u = 0
        ∨ (fun s : String => if s = "y" then (0 : Int) else 1) u = 1)
    ∧ ((build_validity_expressions ["a"]
        = ⟨some (SqlExpr.col "a" "_record__updated_at"),
           some (SqlExpr.col "a" "_record__valid_from"),
           some (SqlExpr.col "a" "_record__valid_to"),
           some (SqlExpr.col "a" "_record__is_current")⟩)
      ∧ (validity_expression "_record__updated_at" "GREATEST" ("x" :: ["y"])
          = some (validity_expression_ne "_record__updated_at" "GREATEST" "x" ["y"]))
      ∧ (evalExpr id (intEnv (fun s => if s = "y" then (0 : Int) else 1))
          (validity_expression_ne "_record__updated_at" "GREATEST" "x" ["y"])
        = Value.vInt (List.foldl max ((fun s : String => if s = "y" then (0 : Int) else 1) "x")
            (["y"].map (fun s => if s = "y" then (0 : Int) else 1))))
      ∧ (evalExpr id (intEnv (fun s => if s = "y" then (0 : Int) else 1))
          (validity_expression_ne "_record__valid_from" "GREATEST" "x" ["y"])
        = Value.vInt (List.foldl max ((fun s : String => if s = "y" then (0 : Int) else 1) "x")
            (["y"].map (fun s => if s = "y" then (0 : Int) else 1))))
      ∧ (evalExpr id (intEnv (fun s => if s = "y" then (0 : Int) else 1))
          (validity_expression_ne "_record__valid_to" "LEAST" "x" ["y"])
        = Value.vInt (List.foldl min ((fun s : String => if s = "y" then (0 : Int) else 1) "x")
            (["y"].map (fun s => if s = "y" then (0 : Int) else 1))))
      ∧ (evalExpr id (intEnv (fun s => if s = "y" then (0 : Int) else 1))
          (validity_expression_ne "_record__is_current" "LEAST" "x" ["y"])
        = Value.vInt (List.foldl min ((fun s : String => if s = "y" then (0 : Int) else 1) "x")
            (["y"].map (fun s => if s = "y" then (0 : Int) else 1))))
      ∧ (List.foldl min ((fun s : String => if s = "y" then (0 : Int) else 1) "x")
            (["y"].map (fun s => if s = "y" then (0 : Int) else 1)) = 1 ↔
          ((fun s : String => if s = "y" then (0 : Int) else 1) "x" = 1
            ∧ ∀ u ∈ ["y"], (fun s : String => if s = "y" then (0 : Int) else 1) u = 1))
      ∧ (∀ u ∈ "x" :: ["y"], (fun s : String => if s = "y" then (0 : Int) else 1) u = 0 →
          List.foldl min ((fun s : String => if s = "y" then (0 : Int) else 1) "x")
            (["y"].map (fun s => if s = "y" then (0 : Int) else 1)) = 0)) :=
  ⟨by decide, by decide,
   bridge_validity_aggregation_correct id (fun s => if s = "y" then (0 : Int) else 1)
     "a" "x" ["y"] (by decide) (by decide)⟩

/-- C5: for a declared primary hook the generated point-in-time expression
is `CONCAT(primary_hook, '~epoch__valid_from|', CAST(valid_from AS text))`
aliased exactly `_pit<primary_hook_name>`, and (for `valid_from` renderings
free of the `'~'` marker, as timestamp texts are) its value determines and
is determined by the pair (primary hook value, `valid_from`). -/
theorem pit_hook_correct (p : String) (hp : p ≠ "")
    (sha : String → String) (env : String → String → Value) (hv vf : String)
    (henv1 : env "" p = Value.vStr hv)
    (henv2 : env "" "_record__valid_from" = Value.vStr vf) :
    ∃ e, build_primary_hook_expression (some p) = some e
      ∧ aliasOf e = "_pit" ++ p
      ∧ evalExpr sha env e = Value.vStr (pitValue hv vf)
      ∧ (∀ h₁ h₂ v₁ v₂ : String, '~' ∉ v₁.data → '~' ∉ v₂.data →
          (pitValue h₁ v₁ = pitValue h₂ v₂ ↔ (h₁ = h₂ ∧ v₁ = v₂))) := by
  obtain ⟨e, he1, he2, he3⟩ := eval_primary_hook_expression p hp sha env hv vf henv1 henv2
  exact ⟨e, he1, he2, he3, fun h₁ h₂ v₁ v₂ n₁ n₂ => pitValue_inj h₁ h₂ v₁ v₂ n₁ n₂⟩

/-- Witness for C5 at a concrete primary hook and row. -/
theorem pit_hook_correct_witness :
    ("order_hook" ≠ "")
    ∧ ((fun _ c : String => if c = "order_hook" then Value.vStr "epoch|1"
          else if c = "_record__valid_from" then Value.vStr "2020-01-01"
          else Value.vNull) "" "order_hook" = Value.vStr "epoch|1")
    ∧ ((fun _ c : String => if c = "order_hook" then Value.vStr "epoch|1"
          else if c = "_record__valid_from" then Value.vStr "2020-01-01"
          else Value.vNull) "" "_record__valid_from" = Value.vStr "2020-01-01")
    ∧ (∃ e, build_primary_hook_expression (some "order_hook") = some e
        ∧ aliasOf e = "_pit" ++ "order_hook"
        ∧ evalExpr id
            (fun _ c => if c = "order_hook" then Value.vStr "epoch|1"
              else if c = "_record__valid_from" then Value.vStr "2020-01-01"
              else Value.vNull) e
          = Value.vStr (pitValue "epoch|1" "2020-01-01")
        ∧ (∀ h₁ h₂ v₁ v₂ : String, '~' ∉ v₁.data → '~' ∉ v₂.data →
            (pitValue h₁ v₁ = pitValue h₂ v₂ ↔ (h₁ = h₂ ∧ v₁ = v₂)))) :=
  ⟨by decide, by decide, by decide,
   pit_hook_correct "order_hook" (by decide) id _ "epoch|1" "2020-01-01"
     (by decide) (by decide)⟩

/- Helper lemmas on the entrypoints' WHERE clauses. -/

theorem hook_entrypoint_ok_where (name : String) (hooks : List SimpleHook)
    (comps : List CompositeHook) (metadata : String → List String)
    (s e : SqlExpr) (plan : SelectPlan)
    (h : hook_entrypoint name hooks comps metadata s e = Except.ok plan) :
    plan.whereClause
      = some (SqlExpr.between (SqlExpr.col "" "_record__updated_at") s e) := by
  unfold hook_entrypoint at h
  rcases hv : hook_resolver_primary hooks comps with _ | p
  · rw [hv] at h
    exact absurd h (by simp)
  · rw [hv] at h
    rcases hb : build_primary_hook_expression (some p) with _ | phe
    · simp only [hb, reduceCtorEq] at h
    · simp only [hb, Except.ok.injEq] at h
      rw [← h]

theorem bridge_entrypoint_ok_where (name : String) (hooks : List SimpleHook)
    (comps : List CompositeHook) (frames : List Frame)
    (metadata : String → List String) (s e : SqlExpr) (plan : SelectPlan)
    (h : bridge_entrypoint name hooks comps frames metadata s e = Except.ok plan) :
    ∃ tail, plan.whereClause
      = some (SqlExpr.between
          (validity_expression_ne "_record__updated_at" "GREATEST" ("frame__" ++ name) tail)
          s e) := by
  unfold bridge_entrypoint at h
  rcases hv : validHookName (find_primary_hook hooks comps) with _ | p
  · rw [hv] at h
    exact absurd h (by simp)
  · rw [hv] at h
    simp only [Except.ok.injEq] at h
    exact ⟨(build_joins (get_foreign_hooks hooks comps p frames)
        ("frame__" ++ name) frames metadata).record_metadata_tables_tail, by rw [← h]⟩

/-- C6 counterexample: a frame named `customers` with no primary hook fails
in the Hook Resolver with a fixed message that does not contain the frame
name, refuting "a structured error that identifies the frame by name". -/
theorem hook_error_omits_frame_name_cex :
    hook_entrypoint "customers" [] [] (fun _ => []) (SqlExpr.litNum 0) (SqlExpr.litNum 1)
      = Except.error "Primary hook is missing or invalid."
    ∧ ¬ List.IsInfix "customers".data "Primary hook is missing or invalid.".data :=
  ⟨rfl, by decide⟩

/-- C6 amended: a frame without a truthy primary hook fails generation in
both resolvers; the Bridge Join Planner's error message names the frame,
the Hook Resolver's is a fixed message that does not; and generation is
scoped per frame — each catalog entry's result is exactly its own
entrypoint output, independent of the other frames. -/
theorem missing_primary_hook_errors (name : String) (hooks : List SimpleHook)
    (comps : List CompositeHook) (frames : List Frame)
    (metadata : String → List String) (s e : SqlExpr)
    (h1 : validHookName (hook_resolver_primary hooks comps) = none)
    (h2 : validHookName (find_primary_hook hooks comps) = none) :
    hook_entrypoint name hooks comps metadata s e
      = Except.error "Primary hook is missing or invalid."
    ∧ bridge_entrypoint name hooks comps frames metadata s e
      = Except.error ("No primary hook found for frame " ++ name)
    ∧ List.IsSuffix name.data ("No primary hook found for frame " ++ name).data
    ∧ (∀ f ∈ filter_frames frames,
        (f.name, hook_entrypoint f.name f.hooks f.compositeHooks metadata s e)
          ∈ generate_hook_catalog frames metadata s e) := by
  refine ⟨hook_entrypoint_error name hooks comps metadata s e h1,
    bridge_entrypoint_error name hooks comps frames metadata s e h2, ?_, ?_⟩
  · rw [String.data_append]
    exact ⟨"No primary hook found for frame ".data, rfl⟩
  · intro f hf
    exact List.mem_map_of_mem _ hf

/-- Witness for C6 amended: an empty-hooks frame beside a healthy frame. -/
theorem missing_primary_hook_errors_witness :
    validHookName (hook_resolver_primary [] []) = none
    ∧ validHookName (find_primary_hook [] []) = none
    ∧ (hook_entrypoint "customers" [] [] (fun _ => []) (SqlExpr.litNum 0) (SqlExpr.litNum 1)
        = Except.error "Primary hook is missing or invalid."
      ∧ bridge_entrypoint "customers" [] []
          [⟨"customers", [], [], false⟩,
           ⟨"orders", [⟨some "order_hook", "k", some "id", true⟩], [], false⟩]
          (fun _ => []) (SqlExpr.litNum 0) (SqlExpr.litNum 1)
        = Except.error ("No primary hook found for frame " ++ "customers")
      ∧ List.IsSuffix "customers".data
          ("No primary hook found for frame " ++ "customers").data
      ∧ (∀ f ∈ filter_frames
            [⟨"customers", [], [], false⟩,
             ⟨"orders", [⟨some "order_hook", "k", some "id", true⟩], [], false⟩],
          (f.name, hook_entrypoint f.name f.hooks f.compositeHooks (fun _ => [])
              (SqlExpr.litNum 0) (SqlExpr.litNum 1))
            ∈ generate_hook_catalog
                [⟨"customers", [], [], false⟩,
                 ⟨"orders", [⟨some "order_hook", "k", some "id", true⟩], [], false⟩]
                (fun _ => []) (SqlExpr.litNum 0) (SqlExpr.litNum 1))) :=
  ⟨rfl, rfl,
   missing_primary_hook_errors "customers" [] []
     [⟨"customers", [], [], false⟩,
      ⟨"orders", [⟨some "order_hook", "k", some "id", true⟩], [], false⟩]
     (fun _ => []) (SqlExpr.litNum 0) (SqlExpr.litNum 1) rfl rfl⟩

/-- C7 counterexample: for empty column metadata the Raw Deduplicator does
NOT emit an always-false/no-row plan — its WHERE is the rank-1 filter, and
on one input row with an empty anti-join target the plan returns a row. -/
theorem empty_inputs_plan_cex :
    (∃ plan, raw_entrypoint "orders" "northwind" [] = Except.ok plan
      ∧ plan.whereClause
          = some (SqlExpr.eqE (SqlExpr.col "" "_record__hash__version") (SqlExpr.litNum 1))
      ∧ plan.whereClause ≠ some SqlExpr.falseE)
    ∧ raw_plan_rows [cte_source_row (fun s => s) [] 7] [] ≠ [] := by
  constructor
  · refine ⟨_, rfl, rfl, ?_⟩
    intro hcl
    exact SqlExpr.noConfusion (Option.some.inj hcl)
  · decide

/-- C7 amended: a frame with zero valid events yields the always-false
plan `SELECT 1 WHERE FALSE` (whose projection is the literal `1`, not the
declared output shape) without raising; empty column metadata does not
raise either, but produces the ordinary dedup plan (rank-1 WHERE filter
over a constant record hash), not an always-false plan. -/
theorem empty_inputs_degrade (frameName : String) (events : List EventDef)
    (hev : (event_columns_and_names frameName events).2 = [])
    (name schema : String) (hname : name ≠ "") :
    build_event_bridge_sql_empty frameName events = some event_empty_plan
    ∧ event_empty_plan.whereClause = some SqlExpr.falseE
    ∧ event_empty_plan.projections = [SqlExpr.litNum 1]
    ∧ (∃ plan, raw_entrypoint name schema [] = Except.ok plan
        ∧ plan.whereClause
            = some (SqlExpr.eqE (SqlExpr.col "" "_record__hash__version")
                (SqlExpr.litNum 1))) := by
  refine ⟨?_, rfl, rfl, ?_⟩
  · simp [build_event_bridge_sql_empty, hev]
  · unfold raw_entrypoint
    rw [if_neg hname]
    exact ⟨_, rfl, rfl⟩

/-- Witness for C7 amended: one invalid event (missing expression), empty
column metadata. -/
theorem empty_inputs_degrade_witness :
    (event_columns_and_names "orders" [⟨some "shipped", none, none, none⟩]).2 = []
    ∧ ("orders" ≠ "")
    ∧ (build_event_bridge_sql_empty "orders" [⟨some "shipped", none, none, none⟩]
        = some event_empty_plan
      ∧ event_empty_plan.whereClause = some SqlExpr.falseE
      ∧ event_empty_plan.projections = [SqlExpr.litNum 1]
      ∧ (∃ plan, raw_entrypoint "orders" "northwind" [] = Except.ok plan
          ∧ plan.whereClause
              = some (SqlExpr.eqE (SqlExpr.col "" "_record__hash__version")
                  (SqlExpr.litNum 1)))) :=
  ⟨rfl, by decide,
   empty_inputs_degrade "orders" [⟨some "shipped", none, none, none⟩] rfl
     "orders" "northwind" (by decide)⟩

/-- C8 counterexample: the generated window filter is SQL `BETWEEN`, which
is inclusive of `end_ts` — at `updated_at = end_ts = 100` the generated
filter accepts the row while the claimed half-open interval rejects it. -/
theorem window_filter_inclusive_cex :
    (∃ plan, hook_entrypoint "orders" [⟨some "order_hook", "k", some "id", true⟩] []
        (fun _ => []) (SqlExpr.litNum 0) (SqlExpr.litNum 100) = Except.ok plan
      ∧ plan.whereClause
          = some (SqlExpr.between (SqlExpr.col "" "_record__updated_at")
              (SqlExpr.litNum 0) (SqlExpr.litNum 100)))
    ∧ evalExpr (fun s => s) (updatedAtEnv 100)
        (SqlExpr.between (SqlExpr.col "" "_record__updated_at")
          (SqlExpr.litNum 0) (SqlExpr.litNum 100))
      = Value.vBool true
    ∧ ¬ ((0 : Int) ≤ 100 ∧ (100 : Int) < 100) :=
  ⟨⟨_, rfl, rfl⟩, rfl, by decide⟩

/-- C8 amended: every generated incremental plan filters the designated
`updated_at` column with `BETWEEN start_ts AND end_ts`, a CLOSED interval:
inclusive of `start_ts` and also inclusive of `end_ts`. -/
theorem window_filter_closed_interval (sha : String → String) (x s e : Int) :
    (evalExpr sha (updatedAtEnv x)
        (SqlExpr.between (SqlExpr.col "" "_record__updated_at")
          (SqlExpr.litNum s) (SqlExpr.litNum e))
      = Value.vBool (decide (s ≤ x) && decide (x ≤ e)))
    ∧ (Value.vBool (decide (s ≤ x) && decide (x ≤ e)) = Value.vBool true
        ↔ (s ≤ x ∧ x ≤ e))
    ∧ (∀ (name : String) (hooks : List SimpleHook) (comps : List CompositeHook)
        (metadata : String → List String) (startE endE : SqlExpr) (plan : SelectPlan),
        hook_entrypoint name hooks comps metadata startE endE = Except.ok plan →
        plan.whereClause
          = some (SqlExpr.between (SqlExpr.col "" "_record__updated_at") startE endE))
    ∧ (∀ (name : String) (hooks : List SimpleHook) (comps : List CompositeHook)
        (frames : List Frame) (metadata : String → List String)
        (startE endE : SqlExpr) (plan : SelectPlan),
        bridge_entrypoint name hooks comps frames metadata startE endE = Except.ok plan →
        ∃ tail, plan.whereClause
          = some (SqlExpr.between
              (validity_expression_ne "_record__updated_at" "GREATEST"
                ("frame__" ++ name) tail)
              startE endE)) := by
  refine ⟨eval_between_updated_at sha x s e, ?_,
    fun n hk cm md s' e' pl h => hook_entrypoint_ok_where n hk cm md s' e' pl h,
    fun n hk cm fr md s' e' pl h => bridge_entrypoint_ok_where n hk cm fr md s' e' pl h⟩
  simp

/-- C9 counterexample: with two simple hooks both marked primary, the Hook
Resolver settles on the LAST one while the Bridge Join Planner's
`find_primary_hook` returns the FIRST — the selections differ, refuting
"first match wins in both". -/
theorem primary_tie_break_cex :
    hook_resolver_primary
        [⟨some "hook_a", "k", some "a", true⟩, ⟨some "hook_b", "k", some "b", true⟩] []
      = some "hook_b"
    ∧ find_primary_hook
        [⟨some "hook_a", "k", some "a", true⟩, ⟨some "hook_b", "k", some "b", true⟩] []
      = some "hook_a"
    ∧ (some "hook_b" : Option String) ≠ some "hook_a" :=
  ⟨rfl, rfl, by decide⟩

/-- C9 amended: the Bridge Join Planner picks the FIRST hook marked primary
(simple hooks before composite); the Hook Resolver picks the LAST truthy
primary of each category with composite primaries overriding simple ones;
with several hooks marked primary the two resolvers can disagree. -/
theorem primary_hook_resolution (hooks : List SimpleHook) (comps : List CompositeHook) :
    hook_resolver_primary hooks comps = last_primary_spec hooks comps
    ∧ find_primary_hook hooks comps = first_primary_spec hooks comps
    ∧ hook_resolver_primary
        [⟨some "hook_a", "k", some "a", true⟩, ⟨some "hook_b", "k", some "b", true⟩] []
      ≠ find_primary_hook
        [⟨some "hook_a", "k", some "a", true⟩, ⟨some "hook_b", "k", some "b", true⟩] [] :=
  ⟨hook_resolver_primary_eq_last hooks comps, find_primary_hook_eq_first hooks comps,
   by decide⟩

/-- C10: the composite hook is `CONCAT_WS('~', children)` over bare column
references — NULL children are dropped with no sentinel substitution, so
two distinct child-value tuples (one containing NULL) collide, while the
Raw Deduplicator's sentinel-based rendering distinguishes the same pair. -/
theorem composite_hook_not_null_safe (name : String) (hn : name ≠ "")
    (c : String) (cs : List String) (prim : Bool)
    (sha : String → String) (env : String → String → Value) :
    (∃ e, build_composite_hook_expression ⟨some name, c :: cs, prim⟩ = some e
      ∧ aliasOf e = name
      ∧ evalExpr sha env e
        = Value.vStr (concatWsVals ((c :: cs).map (fun child => (env "" child).asText?))))
    ∧ concatWsVals [some "a~b", none] = concatWsVals [some "a", some "b"]
    ∧ ([some "a~b", none] : List (Option String)) ≠ [some "a", some "b"]
    ∧ (none ∈ ([some "a~b", none] : List (Option String)))
    ∧ hashConcatInput [some "a~b", none] ≠ hashConcatInput [some "a", some "b"] :=
  ⟨eval_composite_hook_expression name hn c cs prim sha env,
   by decide, by decide, by decide, by decide⟩

/-- Witness for C10 at a concrete composite hook. -/
theorem composite_hook_not_null_safe_witness :
    ("ch" ≠ "")
    ∧ ((∃ e, build_composite_hook_expression ⟨some "ch", "h1" :: [], true⟩ = some e
        ∧ aliasOf e = "ch"
        ∧ evalExpr id (fun _ _ => Value.vNull) e
          = Value.vStr (concatWsVals
              (("h1" :: []).map (fun child => ((fun _ _ => Value.vNull) "" child).asText?))))
      ∧ concatWsVals [some "a~b", none] = concatWsVals [some "a", some "b"]
      ∧ ([some "a~b", none] : List (Option String)) ≠ [some "a", some "b"]
      ∧ (none ∈ ([some "a~b", none] : List (Option String)))
      ∧ hashConcatInput [some "a~b", none] ≠ hashConcatInput [some "a", some "b"]) :=
  ⟨by decide,
   composite_hook_not_null_safe "ch" (by decide) "h1" [] true id (fun _ _ => Value.vNull)⟩
